import Mathlib

/-!
Verification of the congress-flow debate store, refutation-highlight engine and
summary adapter.  The definitions below are a shallow embedding of the
TypeScript sources:

* the domain types mirror `src/types` (Argument, Speaker, DebateRound, …);
* the store operations mirror `stores/debateStore.ts` (`createDebate`,
  `addSpeaker`, `removeSpeaker`, `deleteArgument`, `linkRefutation`,
  `unlinkRefutation`, and the getters);
* `computeHighlight` mirrors the pure memoised computation inside
  `useRefutationHighlight`;
* the summary-adapter definitions mirror the `mutationFn` and the zod schema
  of `useDebateSummary`.

JavaScript `Date` values are modelled as natural numbers supplied by the
caller (`now` parameters); `generateId` results are modelled as explicit
`freshId` arguments.  Optional string fields use `Option String`, and the
JavaScript truthiness tests on them (`if (argument.refutesSpeaker)`,
`arg.type || "note"`) are modelled with an explicit empty-string check.
-/

namespace CongressFlow

/-- An argument (one recorded note), from `interface Argument` in the types
module. `timestamp` is the creation date as a number. -/
structure Argument where
  id : String
  speakerId : String
  content : String
  timestamp : Nat
  type : Option String
  refutes : List String
  refutedBy : List String
  refutesSpeaker : Option String
deriving DecidableEq

/-- A speaker, from `interface Speaker`.  `side` is one of the two strings
`"affirmative"` / `"negative"` (the `SIDES` constants). -/
structure Speaker where
  id : String
  name : String
  side : String
  order : Int
  arguments : List Argument
deriving DecidableEq

/-- A debate round, from `interface DebateRound`.  `status` is one of
`"in-progress"` / `"completed"` (the `DEBATE_STATUS` constants). -/
structure DebateRound where
  id : String
  topic : String
  createdAt : Nat
  updatedAt : Nat
  speakers : List Speaker
  status : String
deriving DecidableEq

/-- The persisted slice of the zustand store state (`currentDebate`,
`savedDebates`, `isSidebarOpen`). -/
structure DebateState where
  currentDebate : Option DebateRound
  savedDebates : List DebateRound
  isSidebarOpen : Bool
deriving DecidableEq

/-- A view-level refutation edge, from `interface RefutationLink`.
`type` is `"refutes"` or `"refuted-by"` (the `REFUTATION_LINK_TYPES`
constants). -/
structure RefutationLink where
  sourceArgumentId : String
  targetArgumentId : String
  type : String
deriving DecidableEq

/-- The fields of `NewSpeaker = Omit<Speaker, "id" | "arguments">`. -/
structure NewSpeaker where
  name : String
  side : String
  order : Int
deriving DecidableEq

/-- `savedDebates.findIndex(d => d.id === current.id)` followed by either an
in-place update or a push, as `createDebate` / `saveCurrentDebate` do. -/
def archiveRound (saved : List DebateRound) (r : DebateRound) : List DebateRound :=
  match saved.findIdx? (fun d => d.id == r.id) with
  | some i => saved.set i r
  | none => saved ++ [r]

/-- `createDebate(topic)` from the debate store: auto-saves the current round
if it has at least one speaker (update-in-place when already archived, else
append), then replaces the current round with a fresh empty in-progress
round.  `freshId` stands for `generateId()` and `now` for `new Date()`. -/
def createDebate (topic freshId : String) (now : Nat) (st : DebateState) : DebateState :=
  let st1 : DebateState :=
    match st.currentDebate with
    | some cur =>
        if cur.speakers.length > 0 then
          { st with savedDebates := archiveRound st.savedDebates cur }
        else st
    | none => st
  { st1 with
      currentDebate := some
        { id := freshId
          topic := topic
          createdAt := now
          updatedAt := now
          speakers := []
          status := "in-progress" } }

/-- `addSpeaker(speaker)` from the debate store: generates an id first, then
appends the speaker (with empty `arguments`) when a current debate exists,
and returns the id in every case. -/
def addSpeaker (speaker : NewSpeaker) (freshId : String) (now : Nat)
    (st : DebateState) : DebateState × String :=
  let st' : DebateState :=
    match st.currentDebate with
    | none => st
    | some d =>
        { st with
            currentDebate := some
              { d with
                  speakers := d.speakers ++
                    [{ id := freshId
                       name := speaker.name
                       side := speaker.side
                       order := speaker.order
                       arguments := [] }]
                  updatedAt := now } }
  (st', freshId)

/-- The per-argument cleanup performed by `removeSpeaker`: every
`refutes`/`refutedBy` entry contained in the `removedArgumentIds` set is
filtered out. -/
def stripRemoved (removedArgumentIds : List String) (arg : Argument) : Argument :=
  { arg with
      refutes := arg.refutes.filter (fun i => !(removedArgumentIds.contains i))
      refutedBy := arg.refutedBy.filter (fun i => !(removedArgumentIds.contains i)) }

/-- The argument-id set collected by `removeSpeaker` from the first speaker
matching the given id (`speakerToRemove?.arguments.map(a => a.id) ?? []`). -/
def removedIdsOf (d : DebateRound) (speakerId : String) : List String :=
  match d.speakers.find? (fun s => s.id == speakerId) with
  | some s => s.arguments.map (fun a => a.id)
  | none => []

/-- `removeSpeaker(speakerId)`: drops the speaker and strips all
`refutes`/`refutedBy` entries that reference an argument of the removed
speaker (the `removedArgumentIds` set in the source). -/
def removeSpeaker (speakerId : String) (now : Nat) (st : DebateState) : DebateState :=
  match st.currentDebate with
  | none => st
  | some d =>
      let updatedSpeakers : List Speaker :=
        (d.speakers.filter (fun s => s.id != speakerId)).map (fun speaker =>
          { speaker with
              arguments := speaker.arguments.map
                (stripRemoved (removedIdsOf d speakerId)) })
      { st with
          currentDebate := some
            { d with speakers := updatedSpeakers, updatedAt := now } }

/-- The per-argument transformation applied by `deleteArgument`. -/
def stripArgId (argumentId : String) (arg : Argument) : Argument :=
  { arg with
      refutes := arg.refutes.filter (fun i => i != argumentId)
      refutedBy := arg.refutedBy.filter (fun i => i != argumentId) }

/-- `deleteArgument(argumentId)`: removes the argument from its speaker and
removes its id from every remaining argument's `refutes`/`refutedBy`. -/
def deleteArgument (argumentId : String) (now : Nat) (st : DebateState) : DebateState :=
  match st.currentDebate with
  | none => st
  | some d =>
      { st with
          currentDebate := some
            { d with
                speakers := d.speakers.map (fun speaker =>
                  { speaker with
                      arguments :=
                        (speaker.arguments.filter (fun arg => arg.id != argumentId)).map
                          (stripArgId argumentId) })
                updatedAt := now } }

/-- Append-if-absent, the `xs.includes(y) ? xs : [...xs, y]` pattern (also
how a JavaScript `Set` accumulates in insertion order). -/
def insertUnique (l : List String) (x : String) : List String :=
  if l.contains x then l else l ++ [x]

/-- The per-argument transformation applied by `linkRefutation`: the source
argument gains the target in `refutes` (if absent), the target gains the
source in `refutedBy` (if absent); the two `if` branches are tried in the
source's order. -/
def linkTransform (sourceArgumentId targetArgumentId : String) (arg : Argument) : Argument :=
  if arg.id == sourceArgumentId then
    { arg with refutes := insertUnique arg.refutes targetArgumentId }
  else if arg.id == targetArgumentId then
    { arg with refutedBy := insertUnique arg.refutedBy sourceArgumentId }
  else arg

/-- `linkRefutation(sourceArgumentId, targetArgumentId)` from the debate
store. -/
def linkRefutation (sourceArgumentId targetArgumentId : String) (now : Nat)
    (st : DebateState) : DebateState :=
  match st.currentDebate with
  | none => st
  | some d =>
      { st with
          currentDebate := some
            { d with
                speakers := d.speakers.map (fun speaker =>
                  { speaker with
                      arguments := speaker.arguments.map
                        (linkTransform sourceArgumentId targetArgumentId) })
                updatedAt := now } }

/-- The per-argument transformation applied by `unlinkRefutation`. -/
def unlinkTransform (sourceArgumentId targetArgumentId : String) (arg : Argument) : Argument :=
  if arg.id == sourceArgumentId then
    { arg with refutes := arg.refutes.filter (fun i => i != targetArgumentId) }
  else if arg.id == targetArgumentId then
    { arg with refutedBy := arg.refutedBy.filter (fun i => i != sourceArgumentId) }
  else arg

/-- `unlinkRefutation(sourceArgumentId, targetArgumentId)` from the debate
store. -/
def unlinkRefutation (sourceArgumentId targetArgumentId : String) (now : Nat)
    (st : DebateState) : DebateState :=
  match st.currentDebate with
  | none => st
  | some d =>
      { st with
          currentDebate := some
            { d with
                speakers := d.speakers.map (fun speaker =>
                  { speaker with
                      arguments := speaker.arguments.map
                        (unlinkTransform sourceArgumentId targetArgumentId) })
                updatedAt := now } }

/-- The speaker-by-speaker search performed by `getArgumentById`. -/
def findArgInSpeakers : List Speaker → String → Option Argument
  | [], _ => none
  | sp :: rest, argumentId =>
      match sp.arguments.find? (fun a => a.id == argumentId) with
      | some a => some a
      | none => findArgInSpeakers rest argumentId

/-- `getArgumentById(argumentId)` from the debate store. -/
def getArgumentById (st : DebateState) (argumentId : String) : Option Argument :=
  match st.currentDebate with
  | none => none
  | some d => findArgInSpeakers d.speakers argumentId

/-- `getRefutationLinks()`: flattens every argument's `refutes` list into a
round-wide edge list, all edges typed `"refutes"`. -/
def getRefutationLinks (st : DebateState) : List RefutationLink :=
  match st.currentDebate with
  | none => []
  | some d =>
      d.speakers.flatMap (fun speaker =>
        speaker.arguments.flatMap (fun argument =>
          argument.refutes.map (fun targetId =>
            { sourceArgumentId := argument.id
              targetArgumentId := targetId
              type := "refutes" })))

/-- All arguments of a round, in speaker order (the flattening every
round-wide loop in the source performs). -/
def roundArgs (d : DebateRound) : List Argument :=
  d.speakers.flatMap (fun sp => sp.arguments)

/-- The result computed inside `useRefutationHighlight`'s `useMemo`.  The
JavaScript `Set` of connected ids is modelled as an insertion-ordered
duplicate-free list. -/
structure HighlightResult where
  outgoingLinks : List RefutationLink
  incomingLinks : List RefutationLink
  allRelevantLinks : List RefutationLink
  connectedArgumentIds : List String
deriving DecidableEq

/-- The empty highlight result returned when nothing is hovered or the
hovered id resolves to no argument. -/
def emptyHighlight : HighlightResult :=
  { outgoingLinks := []
    incomingLinks := []
    allRelevantLinks := []
    connectedArgumentIds := [] }

/-- The pure computation inside `useRefutationHighlight` (the `useMemo`
body), as a function of the hovered id and the store state.

The JavaScript `hoveredArgumentId.replace("speaker-", "")` removes the first
occurrence of `"speaker-"`; under the guarding `startsWith("speaker-")` test
that equals dropping the prefix, which is how it is modelled here.  The
truthiness test `if (argument.refutesSpeaker)` is false for both `undefined`
and the empty string. -/
def computeHighlight (hoveredArgumentId : Option String) (st : DebateState) :
    HighlightResult :=
  match hoveredArgumentId with
  | none => emptyHighlight
  | some hovered =>
      let allLinks := getRefutationLinks st
      match getArgumentById st hovered with
      | none => emptyHighlight
      | some argument =>
          let outgoingBase :=
            allLinks.filter (fun link => link.sourceArgumentId == hovered)
          let outgoing :=
            match argument.refutesSpeaker with
            | some rs =>
                if rs != "" then
                  outgoingBase ++
                    [{ sourceArgumentId := hovered
                       targetArgumentId := "speaker-" ++ rs
                       type := "refutes" }]
                else outgoingBase
            | none => outgoingBase
          let incomingBase :=
            (allLinks.filter (fun link => link.targetArgumentId == hovered)).map
              (fun link =>
                { sourceArgumentId := link.targetArgumentId
                  targetArgumentId := link.sourceArgumentId
                  type := "refuted-by" })
          let incoming :=
            match st.currentDebate with
            | some d =>
                if hovered.startsWith "speaker-" then
                  let speakerId := hovered.drop ("speaker-".length)
                  incomingBase ++
                    d.speakers.flatMap (fun speaker =>
                      (speaker.arguments.filter
                          (fun arg => arg.refutesSpeaker == some speakerId)).map
                        (fun arg =>
                          { sourceArgumentId := arg.id
                            targetArgumentId := hovered
                            type := "refuted-by" }))
                else incomingBase
            | none => incomingBase
          let all := outgoing ++ incoming
          let connected := all.foldl (fun acc link =>
            let acc1 :=
              if link.sourceArgumentId != hovered then
                insertUnique acc link.sourceArgumentId
              else acc
            if link.targetArgumentId != hovered then
              insertUnique acc1 link.targetArgumentId
            else acc1) []
          { outgoingLinks := outgoing
            incomingLinks := incoming
            allRelevantLinks := all
            connectedArgumentIds := connected }

/-- One entry of the per-side argument lists assembled by the summary
`mutationFn`. -/
structure PromptArgument where
  speaker : String
  content : String
  type : String
deriving DecidableEq

/-- The data handed to `generateSummaryFromAPI` when the precondition check
passes. -/
structure SummaryRequest where
  topic : String
  affirmativeArguments : List PromptArgument
  negativeArguments : List PromptArgument
deriving DecidableEq

/-- JavaScript `a || b` on an optional string: falsy for `undefined` and for
the empty string. -/
def jsOr (s : Option String) (dflt : String) : String :=
  match s with
  | some t => if t == "" then dflt else t
  | none => dflt

/-- JavaScript `String.prototype.trim`: strips leading and trailing
whitespace. -/
def jsTrim (s : String) : String :=
  String.mk
    (((s.data.dropWhile Char.isWhitespace).reverse.dropWhile
        Char.isWhitespace).reverse)

/-- The entries a single speaker contributes to its side's list in the
summary `mutationFn`: arguments whose trimmed content is non-empty, with
speaker name and `arg.type || "note"`. -/
def speakerPromptArguments (speaker : Speaker) : List PromptArgument :=
  (speaker.arguments.filter (fun arg => jsTrim arg.content != "")).map
    (fun arg =>
      { speaker := speaker.name
        content := arg.content
        type := jsOr arg.type "note" })

/-- The `affirmativeArguments` list gathered by the summary `mutationFn`
(arguments of speakers whose `side === SIDES.AFFIRMATIVE`). -/
def affirmativePromptArguments (d : DebateRound) : List PromptArgument :=
  (d.speakers.filter (fun sp => sp.side == "affirmative")).flatMap
    speakerPromptArguments

/-- The `negativeArguments` list gathered by the summary `mutationFn`
(arguments of every speaker whose side is not affirmative). -/
def negativePromptArguments (d : DebateRound) : List PromptArgument :=
  (d.speakers.filter (fun sp => sp.side != "affirmative")).flatMap
    speakerPromptArguments

/-- The summary `mutationFn` of `useDebateSummary`, up to the point where the
external service is invoked: `Except.ok` carries the request that would be
sent to the collaborator, `Except.error` the message of the synchronous
throw that prevents any external call. -/
def summaryMutation (currentDebate : Option DebateRound) :
    Except String SummaryRequest :=
  match currentDebate with
  | none => Except.error "No active debate to summarize"
  | some d =>
      let affirmativeArguments := affirmativePromptArguments d
      let negativeArguments := negativePromptArguments d
      if affirmativeArguments.length == 0 && negativeArguments.length == 0 then
        Except.error "No arguments recorded in the debate yet"
      else
        Except.ok
          { topic := d.topic
            affirmativeArguments := affirmativeArguments
            negativeArguments := negativeArguments }

/-- JSON values, for the payload extracted from the collaborator response.
Numbers are rationals. -/
inductive Json where
  | null
  | bool (b : Bool)
  | num (n : Rat)
  | str (s : String)
  | arr (items : List Json)
  | obj (fields : List (String × Json))

/-- Field lookup on a JSON object; `none` on non-objects and missing keys. -/
def Json.getField : Json → String → Option Json
  | .obj fields, key => (fields.find? (fun f => f.1 == key)).map (fun f => f.2)
  | _, _ => none

/-- `MajorArgument` from the types module, with the rational strength score. -/
structure MajorArgument where
  side : String
  argument : String
  strength : Rat
deriving DecidableEq

/-- `ClashArea` from the types module. -/
structure ClashArea where
  topic : String
  affirmativePosition : String
  negativePosition : String
  status : String
deriving DecidableEq

/-- `DebateSummary` from the types module. -/
structure DebateSummary where
  majorArguments : List MajorArgument
  areasOfClash : List ClashArea
  recommendations : List String
  overallAssessment : String
deriving DecidableEq

/-- `z.string()`: accepts exactly JSON strings. -/
def parseJsonString : Json → Option String
  | .str s => some s
  | _ => none

/-- `z.enum([SIDES.AFFIRMATIVE, SIDES.NEGATIVE])`. -/
def parseSide : Json → Option String
  | .str s => if s == "affirmative" || s == "negative" then some s else none
  | _ => none

/-- `z.enum([CLASH_STATUS.RESOLVED, CLASH_STATUS.CONTESTED,
CLASH_STATUS.UNADDRESSED])`. -/
def parseClashStatus : Json → Option String
  | .str s =>
      if s == "resolved" || s == "contested" || s == "unaddressed" then some s
      else none
  | _ => none

/-- `z.number().min(0).max(100)`. -/
def parseStrength : Json → Option Rat
  | .num n => if 0 ≤ n ∧ n ≤ 100 then some n else none
  | _ => none

/-- `z.array(schema)`: the value must be an array and every element must
validate. -/
def mapOption {α : Type} (f : Json → Option α) : List Json → Option (List α)
  | [] => some []
  | j :: rest =>
      match f j, mapOption f rest with
      | some a, some tail => some (a :: tail)
      | _, _ => none

/-- A JSON array value, or `none`. -/
def parseJsonArray : Json → Option (List Json)
  | .arr items => some items
  | _ => none

/-- The element schema of `majorArguments` in `debateSummarySchema`. -/
def parseMajorArgument (j : Json) : Option MajorArgument :=
  match (j.getField "side").bind parseSide,
        (j.getField "argument").bind parseJsonString,
        (j.getField "strength").bind parseStrength with
  | some side, some argument, some strength =>
      some { side := side, argument := argument, strength := strength }
  | _, _, _ => none

/-- The element schema of `areasOfClash` in `debateSummarySchema`. -/
def parseClashArea (j : Json) : Option ClashArea :=
  match (j.getField "topic").bind parseJsonString,
        (j.getField "affirmativePosition").bind parseJsonString,
        (j.getField "negativePosition").bind parseJsonString,
        (j.getField "status").bind parseClashStatus with
  | some topic, some aff, some neg, some status =>
      some
        { topic := topic
          affirmativePosition := aff
          negativePosition := neg
          status := status }
  | _, _, _, _ => none

/-- `debateSummarySchema.parse` on the extracted JSON value: every field
must be present and well-typed, strengths in range and enums recognized;
nothing is coerced. -/
def validateSummary (j : Json) : Option DebateSummary :=
  match ((j.getField "majorArguments").bind parseJsonArray).bind
          (mapOption parseMajorArgument),
        ((j.getField "areasOfClash").bind parseJsonArray).bind
          (mapOption parseClashArea),
        ((j.getField "recommendations").bind parseJsonArray).bind
          (mapOption parseJsonString),
        (j.getField "overallAssessment").bind parseJsonString with
  | some ma, some ac, some recs, some oa =>
      some
        { majorArguments := ma
          areasOfClash := ac
          recommendations := recs
          overallAssessment := oa }
  | _, _, _, _ => none

/-- `parseAIResponse` after JSON extraction: a schema failure is a thrown
`ZodError`, modelled as `Except.error`. -/
def parseAIResponse (j : Json) : Except String DebateSummary :=
  match validateSummary j with
  | some s => Except.ok s
  | none => Except.error "ZodError"

/-- How the hook settles the mutation: `onSuccess` stores the parsed summary
(`setSummary(data)`), while a failed mutation leaves the displayed summary
untouched. -/
def applySummaryMutationResult (prev : Option DebateSummary)
    (r : Except String DebateSummary) : Option DebateSummary :=
  match r with
  | Except.ok s => some s
  | Except.error _ => prev

/-- The link-symmetry invariant on one round: `B.id ∈ A.refutes` iff
`A.id ∈ B.refutedBy`, for all arguments `A`, `B` of the round. -/
def RoundSymm (d : DebateRound) : Prop :=
  ∀ a ∈ roundArgs d, ∀ b ∈ roundArgs d, (b.id ∈ a.refutes ↔ a.id ∈ b.refutedBy)

/-- No argument of the round refers to itself in `refutes` or `refutedBy`
(the data model forbids self-refutation). -/
def RoundNoSelfRef (d : DebateRound) : Prop :=
  ∀ a ∈ roundArgs d, a.id ∉ a.refutes ∧ a.id ∉ a.refutedBy

/-- Argument ids are pairwise distinct across the round (ids are unique). -/
def RoundNodupIds (d : DebateRound) : Prop :=
  ((roundArgs d).map (fun a => a.id)).Nodup

instance (d : DebateRound) : Decidable (RoundSymm d) := by
  unfold RoundSymm; infer_instance

instance (d : DebateRound) : Decidable (RoundNoSelfRef d) := by
  unfold RoundNoSelfRef; infer_instance

instance (d : DebateRound) : Decidable (RoundNodupIds d) := by
  unfold RoundNodupIds; infer_instance

/-- Lifts a round predicate to the store: it must hold of the current round
when there is one. -/
def OnCurrent (P : DebateRound → Prop) (st : DebateState) : Prop :=
  ∀ d, st.currentDebate = some d → P d

instance (P : DebateRound → Prop) [∀ d, Decidable (P d)] (st : DebateState) :
    Decidable (OnCurrent P st) :=
  match hc : st.currentDebate with
  | none => isTrue (by intro d hd; rw [hc] at hd; cases hd)
  | some d0 =>
      if h : P d0 then
        isTrue (by intro d hd; rw [hc] at hd; injection hd with he; exact he ▸ h)
      else isFalse (fun hall => h (hall d0 hc))

/-- Link symmetry for the store's current round. -/
abbrev StateSymm : DebateState → Prop := OnCurrent RoundSymm

/-- No self-refutation in the store's current round. -/
abbrev StateNoSelfRef : DebateState → Prop := OnCurrent RoundNoSelfRef

/-- Distinct argument ids in the store's current round. -/
abbrev StateNodupIds : DebateState → Prop := OnCurrent RoundNodupIds

/-- The four graph-mutating store operations quantified over by the
link-symmetry claim. -/
inductive StoreOp where
  | link (sourceArgumentId targetArgumentId : String)
  | unlink (sourceArgumentId targetArgumentId : String)
  | delArg (argumentId : String)
  | rmSpeaker (speakerId : String)
deriving DecidableEq

/-- Dispatch of one operation, with the wall-clock reading it uses for
`updatedAt`. -/
def applyOp : StoreOp → Nat → DebateState → DebateState
  | StoreOp.link s t, now, st => linkRefutation s t now st
  | StoreOp.unlink s t, now, st => unlinkRefutation s t now st
  | StoreOp.delArg i, now, st => deleteArgument i now st
  | StoreOp.rmSpeaker i, now, st => removeSpeaker i now st

/-- Runs a sequence of operations (each with its own clock reading). -/
def runOps : List (StoreOp × Nat) → DebateState → DebateState
  | [], st => st
  | p :: rest, st => runOps rest (applyOp p.1 p.2 st)

/-- The operation is not a self-referential `linkRefutation` call. -/
def SelfLinkFree : StoreOp → Prop
  | StoreOp.link s t => s ≠ t
  | StoreOp.unlink _ _ => True
  | StoreOp.delArg _ => True
  | StoreOp.rmSpeaker _ => True

instance (o : StoreOp) : Decidable (SelfLinkFree o) :=
  match o with
  | StoreOp.link s t => inferInstanceAs (Decidable (s ≠ t))
  | StoreOp.unlink _ _ => inferInstanceAs (Decidable True)
  | StoreOp.delArg _ => inferInstanceAs (Decidable True)
  | StoreOp.rmSpeaker _ => inferInstanceAs (Decidable True)

/-- The shape facts about the extracted JSON that the zod schema enforces:
every field present with the right type, strengths within 0–100, and only
recognized `side` / `status` enum values. -/
def SummaryJsonWellFormed (j : Json) : Prop :=
  (∃ items, j.getField "majorArguments" = some (Json.arr items) ∧
    ∀ e ∈ items,
      (∃ side, e.getField "side" = some (Json.str side) ∧
        (side = "affirmative" ∨ side = "negative")) ∧
      (∃ text, e.getField "argument" = some (Json.str text)) ∧
      (∃ strength, e.getField "strength" = some (Json.num strength) ∧
        0 ≤ strength ∧ strength ≤ 100)) ∧
  (∃ items, j.getField "areasOfClash" = some (Json.arr items) ∧
    ∀ e ∈ items,
      (∃ topic, e.getField "topic" = some (Json.str topic)) ∧
      (∃ aff, e.getField "affirmativePosition" = some (Json.str aff)) ∧
      (∃ neg, e.getField "negativePosition" = some (Json.str neg)) ∧
      (∃ status, e.getField "status" = some (Json.str status) ∧
        (status = "resolved" ∨ status = "contested" ∨ status = "unaddressed"))) ∧
  (∃ items, j.getField "recommendations" = some (Json.arr items) ∧
    ∀ e ∈ items, ∃ s, e = Json.str s) ∧
  (∃ oa, j.getField "overallAssessment" = some (Json.str oa))

/-- A round holding a single unlinked argument `"a"`; it satisfies the link
symmetry invariant, has distinct ids and no self-references. -/
def soloArg : Argument :=
  { id := "a", speakerId := "s1", content := "solo", timestamp := 0,
    type := none, refutes := [], refutedBy := [], refutesSpeaker := none }

/-- The speaker owning `soloArg`. -/
def soloSpeaker : Speaker :=
  { id := "s1", name := "Alice", side := "affirmative", order := 1,
    arguments := [soloArg] }

/-- The round holding only `soloSpeaker`. -/
def soloRound : DebateRound :=
  { id := "d1", topic := "resolved: something", createdAt := 0, updatedAt := 0,
    speakers := [soloSpeaker], status := "in-progress" }

/-- A store whose current round is `soloRound`. -/
def soloState : DebateState :=
  { currentDebate := some soloRound, savedDebates := [], isSidebarOpen := true }

/-- Speaker S1's argument `x1` carrying a REF shortcut against speaker `s2`. -/
def refArg : Argument :=
  { id := "x1", speakerId := "s1", content := "REF Bob", timestamp := 0,
    type := none, refutes := [], refutedBy := [], refutesSpeaker := some "s2" }

/-- The round for the speaker-hover scenario: S1 owns `refArg` which refutes
speaker S2 wholesale. -/
def refRound : DebateRound :=
  { id := "d2", topic := "resolved: something", createdAt := 0, updatedAt := 0,
    speakers :=
      [{ id := "s1", name := "Alice", side := "affirmative", order := 1,
         arguments := [refArg] },
       { id := "s2", name := "Bob", side := "negative", order := 2,
         arguments := [] }],
    status := "in-progress" }

/-- A store whose current round is `refRound`. -/
def refState : DebateState :=
  { currentDebate := some refRound, savedDebates := [], isSidebarOpen := true }

/-- Argument A of the highlight scenario: refutes B. -/
def hlA : Argument :=
  { id := "a1", speakerId := "s1", content := "alpha", timestamp := 0,
    type := none, refutes := ["b1"], refutedBy := [], refutesSpeaker := none }

/-- Argument B of the highlight scenario: refuted by A. -/
def hlB : Argument :=
  { id := "b1", speakerId := "s2", content := "beta", timestamp := 0,
    type := none, refutes := [], refutedBy := ["a1"], refutesSpeaker := none }

/-- Argument C of the highlight scenario: linked to nothing. -/
def hlC : Argument :=
  { id := "c1", speakerId := "s2", content := "gamma", timestamp := 0,
    type := none, refutes := [], refutedBy := [], refutesSpeaker := none }

/-- The round of the highlight scenario (arguments A, B, C). -/
def hlRound : DebateRound :=
  { id := "d3", topic := "resolved: something", createdAt := 0, updatedAt := 0,
    speakers :=
      [{ id := "s1", name := "Alice", side := "affirmative", order := 1,
         arguments := [hlA] },
       { id := "s2", name := "Bob", side := "negative", order := 2,
         arguments := [hlB, hlC] }],
    status := "in-progress" }

/-- A store whose current round is `hlRound`. -/
def hlState : DebateState :=
  { currentDebate := some hlRound, savedDebates := [], isSidebarOpen := true }

/-- The cascade-delete scenario: S1 owns A1 (refuting B1) and A2, S2 owns
B1. -/
def cascadeRound : DebateRound :=
  { id := "d4", topic := "resolved: something", createdAt := 0, updatedAt := 0,
    speakers :=
      [{ id := "s1", name := "Alice", side := "affirmative", order := 1,
         arguments :=
           [{ id := "a1", speakerId := "s1", content := "one", timestamp := 0,
              type := none, refutes := ["b1"], refutedBy := [],
              refutesSpeaker := none },
            { id := "a2", speakerId := "s1", content := "two", timestamp := 0,
              type := none, refutes := [], refutedBy := [],
              refutesSpeaker := none }] },
       { id := "s2", name := "Bob", side := "negative", order := 2,
         arguments :=
           [{ id := "b1", speakerId := "s2", content := "three",
              timestamp := 0, type := none, refutes := [],
              refutedBy := ["a1"], refutesSpeaker := none }] }],
    status := "in-progress" }

/-- A store whose current round is `cascadeRound`. -/
def cascadeState : DebateState :=
  { currentDebate := some cascadeRound, savedDebates := [],
    isSidebarOpen := true }

/-- An operation sequence exercising all four operations, including a link
to a non-existent id, with no self-referential link. -/
def sampleOps : List (StoreOp × Nat) :=
  [(StoreOp.link "a2" "b1", 1), (StoreOp.link "a1" "ghost", 2),
   (StoreOp.unlink "a1" "b1", 3), (StoreOp.delArg "a2", 4),
   (StoreOp.rmSpeaker "s2", 5)]

/-- A current round with two speakers and no arguments, for the auto-archive
scenario. -/
def archRound : DebateRound :=
  { id := "d5", topic := "old topic", createdAt := 0, updatedAt := 0,
    speakers :=
      [{ id := "s1", name := "Alice", side := "affirmative", order := 1,
         arguments := [] },
       { id := "s2", name := "Bob", side := "negative", order := 2,
         arguments := [] }],
    status := "in-progress" }

/-- A store whose current round is `archRound` and whose archive is empty. -/
def archState : DebateState :=
  { currentDebate := some archRound, savedDebates := [], isSidebarOpen := true }

/-- A round whose only argument content is whitespace. -/
def wsRound : DebateRound :=
  { id := "d6", topic := "resolved: something", createdAt := 0, updatedAt := 0,
    speakers :=
      [{ id := "s1", name := "Alice", side := "affirmative", order := 1,
         arguments :=
           [{ id := "a1", speakerId := "s1", content := "   ", timestamp := 0,
              type := none, refutes := [], refutedBy := [],
              refutesSpeaker := none }] }],
    status := "in-progress" }

/-- A schema-conforming extracted JSON payload. -/
def goodSummaryJson : Json :=
  Json.obj
    [("majorArguments", Json.arr
        [Json.obj
          [("side", Json.str "affirmative"),
           ("argument", Json.str "solid point"),
           ("strength", Json.num 85)]]),
     ("areasOfClash", Json.arr
        [Json.obj
          [("topic", Json.str "feasibility"),
           ("affirmativePosition", Json.str "works"),
           ("negativePosition", Json.str "fails"),
           ("status", Json.str "contested")]]),
     ("recommendations", Json.arr [Json.str "add evidence"]),
     ("overallAssessment", Json.str "close round")]

/-- An extracted JSON payload missing the required `overallAssessment`
field. -/
def badSummaryJson : Json :=
  Json.obj
    [("majorArguments", Json.arr []),
     ("areasOfClash", Json.arr []),
     ("recommendations", Json.arr [])]

/-- A store with no current round but one archived round, for the
`addSpeaker` no-op scenario. -/
def noRoundState : DebateState :=
  { currentDebate := none,
    savedDebates :=
      [{ id := "d7", topic := "resolved: something", createdAt := 0,
         updatedAt := 0,
         speakers :=
           [{ id := "sX", name := "Zed", side := "negative", order := 1,
              arguments := [] }],
         status := "completed" }],
    isSidebarOpen := false }

deriving instance DecidableEq for Except

/-! ### Helper lemmas about the per-argument transformations -/

theorem contains_iff {l : List String} {x : String} :
    l.contains x = true ↔ x ∈ l := by
  simp

theorem mem_insertUnique {l : List String} {y x : String} :
    x ∈ insertUnique l y ↔ x ∈ l ∨ x = y := by
  unfold insertUnique
  by_cases h : l.contains y
  · rw [if_pos h]
    exact ⟨Or.inl, fun hx => hx.elim id (fun he => he ▸ contains_iff.mp h)⟩
  · rw [if_neg h]; simp

theorem linkTransform_id (s t : String) (a : Argument) :
    (linkTransform s t a).id = a.id := by
  unfold linkTransform
  split
  · rfl
  · split <;> rfl

theorem unlinkTransform_id (s t : String) (a : Argument) :
    (unlinkTransform s t a).id = a.id := by
  unfold unlinkTransform
  split
  · rfl
  · split <;> rfl

theorem stripArgId_id (x : String) (a : Argument) :
    (stripArgId x a).id = a.id := rfl

theorem stripRemoved_id (r : List String) (a : Argument) :
    (stripRemoved r a).id = a.id := rfl

theorem mem_linkTransform_refutes {s t : String} (a : Argument) (x : String) :
    x ∈ (linkTransform s t a).refutes ↔ x ∈ a.refutes ∨ (a.id = s ∧ x = t) := by
  unfold linkTransform
  split
  next h =>
    rw [beq_iff_eq] at h
    simp [mem_insertUnique, h]
  next h =>
    rw [beq_iff_eq] at h
    split
    next h2 =>
      rw [beq_iff_eq] at h2
      simp [h]
    next h2 =>
      simp [h]

theorem mem_linkTransform_refutedBy {s t : String} (a : Argument) (x : String) :
    x ∈ (linkTransform s t a).refutedBy ↔
      x ∈ a.refutedBy ∨ (a.id = t ∧ a.id ≠ s ∧ x = s) := by
  unfold linkTransform
  split
  next h =>
    rw [beq_iff_eq] at h
    simp [h]
  next h =>
    rw [beq_iff_eq] at h
    split
    next h2 =>
      rw [beq_iff_eq] at h2
      have h3 : t ≠ s := fun he => h (h2.trans he)
      simp [mem_insertUnique, h, h2, h3]
    next h2 =>
      rw [beq_iff_eq] at h2
      simp [h, h2]

theorem mem_unlinkTransform_refutes {s t : String} (a : Argument) (x : String) :
    x ∈ (unlinkTransform s t a).refutes ↔
      x ∈ a.refutes ∧ ¬(a.id = s ∧ x = t) := by
  unfold unlinkTransform
  split
  next h =>
    rw [beq_iff_eq] at h
    simp [List.mem_filter, bne_iff_ne, h, and_comm]
  next h =>
    rw [beq_iff_eq] at h
    split
    next h2 =>
      rw [beq_iff_eq] at h2
      simp [h]
    next h2 =>
      simp [h]

theorem mem_unlinkTransform_refutedBy {s t : String} (a : Argument) (x : String) :
    x ∈ (unlinkTransform s t a).refutedBy ↔
      x ∈ a.refutedBy ∧ ¬(a.id = t ∧ a.id ≠ s ∧ x = s) := by
  unfold unlinkTransform
  split
  next h =>
    rw [beq_iff_eq] at h
    simp [h]
  next h =>
    rw [beq_iff_eq] at h
    split
    next h2 =>
      rw [beq_iff_eq] at h2
      have h3 : t ≠ s := fun he => h (h2.trans he)
      simp [List.mem_filter, bne_iff_ne, h, h2, h3, and_comm]
    next h2 =>
      rw [beq_iff_eq] at h2
      simp [h, h2]

theorem mem_stripArgId_refutes {y : String} (a : Argument) (x : String) :
    x ∈ (stripArgId y a).refutes ↔ x ∈ a.refutes ∧ x ≠ y := by
  unfold stripArgId
  simp [List.mem_filter, bne_iff_ne]

theorem mem_stripArgId_refutedBy {y : String} (a : Argument) (x : String) :
    x ∈ (stripArgId y a).refutedBy ↔ x ∈ a.refutedBy ∧ x ≠ y := by
  unfold stripArgId
  simp [List.mem_filter, bne_iff_ne]

theorem mem_stripRemoved_refutes {r : List String} (a : Argument) (x : String) :
    x ∈ (stripRemoved r a).refutes ↔ x ∈ a.refutes ∧ x ∉ r := by
  unfold stripRemoved
  simp [List.mem_filter]

theorem mem_stripRemoved_refutedBy {r : List String} (a : Argument) (x : String) :
    x ∈ (stripRemoved r a).refutedBy ↔ x ∈ a.refutedBy ∧ x ∉ r := by
  unfold stripRemoved
  simp [List.mem_filter]

/-! ### Flattening lemmas -/

theorem flatMap_map_arguments (l : List Speaker) (f : Argument → Argument) :
    (l.map (fun sp => { sp with arguments := sp.arguments.map f })).flatMap
        (fun sp => sp.arguments)
      = (l.flatMap (fun sp => sp.arguments)).map f := by
  induction l with
  | nil => rfl
  | cons sp rest ih =>
      simp only [List.map_cons, List.flatMap_cons, List.map_append, ih]

theorem flatMap_filter_map_arguments (l : List Speaker) (p : Argument → Bool)
    (f : Argument → Argument) :
    (l.map (fun sp =>
        { sp with arguments := (sp.arguments.filter p).map f })).flatMap
        (fun sp => sp.arguments)
      = ((l.flatMap (fun sp => sp.arguments)).filter p).map f := by
  induction l with
  | nil => rfl
  | cons sp rest ih =>
      simp only [List.map_cons, List.flatMap_cons, List.filter_append,
        List.map_append, ih]

/-! ### Shape of each operation's result -/

theorem linkRefutation_none {st : DebateState} (s t : String) (now : Nat)
    (h : st.currentDebate = none) : linkRefutation s t now st = st := by
  unfold linkRefutation; rw [h]

theorem linkRefutation_some {st : DebateState} {d : DebateRound}
    (h : st.currentDebate = some d) (s t : String) (now : Nat) :
    linkRefutation s t now st =
      { st with
          currentDebate := some
            { d with
                speakers := d.speakers.map (fun sp =>
                  { sp with
                      arguments := sp.arguments.map (linkTransform s t) })
                updatedAt := now } } := by
  unfold linkRefutation; rw [h]

theorem unlinkRefutation_none {st : DebateState} (s t : String) (now : Nat)
    (h : st.currentDebate = none) : unlinkRefutation s t now st = st := by
  unfold unlinkRefutation; rw [h]

theorem unlinkRefutation_some {st : DebateState} {d : DebateRound}
    (h : st.currentDebate = some d) (s t : String) (now : Nat) :
    unlinkRefutation s t now st =
      { st with
          currentDebate := some
            { d with
                speakers := d.speakers.map (fun sp =>
                  { sp with
                      arguments := sp.arguments.map (unlinkTransform s t) })
                updatedAt := now } } := by
  unfold unlinkRefutation; rw [h]

theorem deleteArgument_none {st : DebateState} (x : String) (now : Nat)
    (h : st.currentDebate = none) : deleteArgument x now st = st := by
  unfold deleteArgument; rw [h]

theorem deleteArgument_some {st : DebateState} {d : DebateRound}
    (h : st.currentDebate = some d) (x : String) (now : Nat) :
    deleteArgument x now st =
      { st with
          currentDebate := some
            { d with
                speakers := d.speakers.map (fun sp =>
                  { sp with
                      arguments :=
                        (sp.arguments.filter (fun arg => arg.id != x)).map
                          (stripArgId x) })
                updatedAt := now } } := by
  unfold deleteArgument; rw [h]

theorem removeSpeaker_none {st : DebateState} (i : String) (now : Nat)
    (h : st.currentDebate = none) : removeSpeaker i now st = st := by
  unfold removeSpeaker; rw [h]

theorem removeSpeaker_some {st : DebateState} {d : DebateRound}
    (h : st.currentDebate = some d) (i : String) (now : Nat) :
    removeSpeaker i now st =
      { st with
          currentDebate := some
            { d with
                speakers :=
                  (d.speakers.filter (fun sp => sp.id != i)).map (fun sp =>
                    { sp with
                        arguments := sp.arguments.map
                          (stripRemoved (removedIdsOf d i)) })
                updatedAt := now } } := by
  unfold removeSpeaker; rw [h]

theorem roundArgs_mapArgs (d : DebateRound) (f : Argument → Argument)
    (now : Nat) :
    roundArgs
        { d with
            speakers := d.speakers.map (fun sp =>
              { sp with arguments := sp.arguments.map f })
            updatedAt := now }
      = (roundArgs d).map f := by
  unfold roundArgs
  exact flatMap_map_arguments d.speakers f

theorem roundArgs_filterMapArgs (d : DebateRound) (p : Argument → Bool)
    (f : Argument → Argument) (now : Nat) :
    roundArgs
        { d with
            speakers := d.speakers.map (fun sp =>
              { sp with arguments := (sp.arguments.filter p).map f })
            updatedAt := now }
      = ((roundArgs d).filter p).map f := by
  unfold roundArgs
  exact flatMap_filter_map_arguments d.speakers p f

theorem roundArgs_removeSpeakerShape (d : DebateRound) (i : String)
    (f : Argument → Argument) (now : Nat) :
    roundArgs
        { d with
            speakers :=
              (d.speakers.filter (fun sp => sp.id != i)).map (fun sp =>
                { sp with arguments := sp.arguments.map f })
            updatedAt := now }
      = ((d.speakers.filter (fun sp => sp.id != i)).flatMap
          (fun sp => sp.arguments)).map f := by
  unfold roundArgs
  exact flatMap_map_arguments _ f

/-! ### Preservation of the invariants by each operation -/

theorem roundSymm_link {d : DebateRound} (s t : String) (hst : s ≠ t)
    (now : Nat) (hs : RoundSymm d) :
    RoundSymm
      { d with
          speakers := d.speakers.map (fun sp =>
            { sp with arguments := sp.arguments.map (linkTransform s t) })
          updatedAt := now } := by
  intro a' ha' b' hb'
  rw [roundArgs_mapArgs] at ha' hb'
  obtain ⟨a, ha, rfl⟩ := List.mem_map.mp ha'
  obtain ⟨b, hb, rfl⟩ := List.mem_map.mp hb'
  rw [linkTransform_id, linkTransform_id, mem_linkTransform_refutes,
    mem_linkTransform_refutedBy]
  have base := hs a ha b hb
  constructor
  · rintro (hx | ⟨has, hbt⟩)
    · exact Or.inl (base.mp hx)
    · exact Or.inr ⟨hbt, fun he => hst (he.symm.trans hbt), has⟩
  · rintro (hx | ⟨hbt, _, has⟩)
    · exact Or.inl (base.mpr hx)
    · exact Or.inr ⟨has, hbt⟩

theorem roundSymm_unlink {d : DebateRound} (s t : String) (now : Nat)
    (hnd : RoundNodupIds d) (hns : RoundNoSelfRef d) (hs : RoundSymm d) :
    RoundSymm
      { d with
          speakers := d.speakers.map (fun sp =>
            { sp with arguments := sp.arguments.map (unlinkTransform s t) })
          updatedAt := now } := by
  intro a' ha' b' hb'
  rw [roundArgs_mapArgs] at ha' hb'
  obtain ⟨a, ha, rfl⟩ := List.mem_map.mp ha'
  obtain ⟨b, hb, rfl⟩ := List.mem_map.mp hb'
  rw [unlinkTransform_id, unlinkTransform_id, mem_unlinkTransform_refutes,
    mem_unlinkTransform_refutedBy]
  have base := hs a ha b hb
  constructor
  · rintro ⟨hx, hno⟩
    refine ⟨base.mp hx, ?_⟩
    rintro ⟨hbt, hbs, has⟩
    exact hno ⟨has, hbt⟩
  · rintro ⟨hx, hno⟩
    refine ⟨base.mpr hx, ?_⟩
    rintro ⟨has, hbt⟩
    by_cases hbs : b.id = s
    · -- then a and b share the id s, so they are the same argument and the
      -- link would be a self-reference, which the invariants rule out
      have hab : a = b :=
        List.inj_on_of_nodup_map hnd ha hb (has.trans hbs.symm)
      have hxb : b.id ∈ a.refutes := base.mpr hx
      exact (hns b hb).1 (hab ▸ hxb)
    · exact hno ⟨hbt, hbs, has⟩

theorem roundSymm_delete {d : DebateRound} (x : String) (now : Nat)
    (hs : RoundSymm d) :
    RoundSymm
      { d with
          speakers := d.speakers.map (fun sp =>
            { sp with
                arguments := (sp.arguments.filter (fun arg => arg.id != x)).map
                  (stripArgId x) })
          updatedAt := now } := by
  intro a' ha' b' hb'
  rw [roundArgs_filterMapArgs] at ha' hb'
  obtain ⟨a, haf, rfl⟩ := List.mem_map.mp ha'
  obtain ⟨b, hbf, rfl⟩ := List.mem_map.mp hb'
  have ha := List.mem_of_mem_filter haf
  have hb := List.mem_of_mem_filter hbf
  have han : a.id ≠ x := by have := List.of_mem_filter haf; rwa [bne_iff_ne] at this
  have hbn : b.id ≠ x := by have := List.of_mem_filter hbf; rwa [bne_iff_ne] at this
  rw [stripArgId_id, stripArgId_id, mem_stripArgId_refutes,
    mem_stripArgId_refutedBy]
  have base := hs a ha b hb
  exact ⟨fun h => ⟨base.mp h.1, han⟩, fun h => ⟨base.mpr h.1, hbn⟩⟩

theorem ids_distinct_across_speakers {L : List Speaker}
    (h : ((L.flatMap (fun sp => sp.arguments)).map (fun a => a.id)).Nodup)
    {sp sp' : Speaker} (hsp : sp ∈ L) (hsp' : sp' ∈ L) (hne : sp ≠ sp')
    {a b : Argument} (ha : a ∈ sp.arguments) (hb : b ∈ sp'.arguments) :
    a.id ≠ b.id := by
  induction L with
  | nil => cases hsp
  | cons c rest ih =>
      rw [List.flatMap_cons, List.map_append, List.nodup_append] at h
      obtain ⟨h1, h2, hdisj⟩ := h
      rcases List.mem_cons.mp hsp with rfl | hsp2 <;>
        rcases List.mem_cons.mp hsp' with rfl | hsp2'
      · exact absurd rfl hne
      · intro he
        exact hdisj (List.mem_map.mpr ⟨a, ha, rfl⟩)
          (he ▸ List.mem_map.mpr
            ⟨b, List.mem_flatMap.mpr ⟨sp', hsp2', hb⟩, rfl⟩)
      · intro he
        exact hdisj (List.mem_map.mpr ⟨b, hb, rfl⟩)
          (he ▸ List.mem_map.mpr
            ⟨a, List.mem_flatMap.mpr ⟨sp, hsp2, ha⟩, rfl⟩)
      · exact ih h2 hsp2 hsp2'

theorem mem_roundArgs_of_speaker {d : DebateRound} {sp : Speaker}
    (hsp : sp ∈ d.speakers) {a : Argument} (ha : a ∈ sp.arguments) :
    a ∈ roundArgs d :=
  List.mem_flatMap.mpr ⟨sp, hsp, ha⟩

theorem not_mem_removedIds {d : DebateRound} {i : String}
    (hnd : RoundNodupIds d) {sp : Speaker} (hsp : sp ∈ d.speakers)
    (hspne : sp.id ≠ i) {a : Argument} (ha : a ∈ sp.arguments) :
    a.id ∉ removedIdsOf d i := by
  unfold removedIdsOf
  cases hfind : d.speakers.find? (fun s => s.id == i) with
  | none => simp
  | some spR =>
      have hspR : spR ∈ d.speakers := List.mem_of_find?_eq_some hfind
      have hid : spR.id = i := by
        have := List.find?_some hfind; rwa [beq_iff_eq] at this
      intro hmem
      obtain ⟨b, hb, hbe⟩ := List.mem_map.mp hmem
      have hne : sp ≠ spR := fun he => hspne (he ▸ hid)
      exact ids_distinct_across_speakers hnd hsp hspR hne ha hb hbe.symm

theorem roundSymm_removeSpeaker {d : DebateRound} (i : String) (now : Nat)
    (hnd : RoundNodupIds d) (hs : RoundSymm d) :
    RoundSymm
      { d with
          speakers :=
            (d.speakers.filter (fun sp => sp.id != i)).map (fun sp =>
              { sp with
                  arguments := sp.arguments.map
                    (stripRemoved (removedIdsOf d i)) })
          updatedAt := now } := by
  intro a' ha' b' hb'
  rw [roundArgs_removeSpeakerShape] at ha' hb'
  obtain ⟨a, haK, rfl⟩ := List.mem_map.mp ha'
  obtain ⟨b, hbK, rfl⟩ := List.mem_map.mp hb'
  obtain ⟨spa, hspa, haa⟩ := List.mem_flatMap.mp haK
  obtain ⟨spb, hspb, hba⟩ := List.mem_flatMap.mp hbK
  have hspaM := List.mem_of_mem_filter hspa
  have hspbM := List.mem_of_mem_filter hspb
  have hspaNe : spa.id ≠ i := by
    have := List.of_mem_filter hspa; rwa [bne_iff_ne] at this
  have hspbNe : spb.id ≠ i := by
    have := List.of_mem_filter hspb; rwa [bne_iff_ne] at this
  have haR := not_mem_removedIds hnd hspaM hspaNe haa
  have hbR := not_mem_removedIds hnd hspbM hspbNe hba
  have haM : a ∈ roundArgs d := mem_roundArgs_of_speaker hspaM haa
  have hbM : b ∈ roundArgs d := mem_roundArgs_of_speaker hspbM hba
  rw [stripRemoved_id, stripRemoved_id, mem_stripRemoved_refutes,
    mem_stripRemoved_refutedBy]
  have base := hs a haM b hbM
  exact ⟨fun h => ⟨base.mp h.1, haR⟩, fun h => ⟨base.mpr h.1, hbR⟩⟩

theorem sublist_flatMap_of_sublist {α β : Type} {l₁ l₂ : List α}
    (f : α → List β) (h : l₁.Sublist l₂) :
    (l₁.flatMap f).Sublist (l₂.flatMap f) := by
  induction h with
  | slnil => simp
  | cons a h ih =>
      rw [List.flatMap_cons]
      exact ih.trans (List.sublist_append_right _ _)
  | cons₂ a h ih =>
      rw [List.flatMap_cons, List.flatMap_cons]
      exact (List.append_sublist_append_left _).mpr ih

theorem roundNodupIds_mapArgs {d : DebateRound} {f : Argument → Argument}
    (now : Nat) (hid : ∀ a, (f a).id = a.id) (hnd : RoundNodupIds d) :
    RoundNodupIds
      { d with
          speakers := d.speakers.map (fun sp =>
            { sp with arguments := sp.arguments.map f })
          updatedAt := now } := by
  unfold RoundNodupIds at *
  rw [roundArgs_mapArgs, List.map_map]
  have he : ((fun a : Argument => a.id) ∘ f) = (fun a : Argument => a.id) :=
    funext hid
  rw [he]; exact hnd

theorem roundNodupIds_filterMapArgs {d : DebateRound} {p : Argument → Bool}
    {f : Argument → Argument} (now : Nat) (hid : ∀ a, (f a).id = a.id)
    (hnd : RoundNodupIds d) :
    RoundNodupIds
      { d with
          speakers := d.speakers.map (fun sp =>
            { sp with arguments := (sp.arguments.filter p).map f })
          updatedAt := now } := by
  unfold RoundNodupIds at *
  rw [roundArgs_filterMapArgs, List.map_map]
  have he : ((fun a : Argument => a.id) ∘ f) = (fun a : Argument => a.id) :=
    funext hid
  rw [he]
  exact List.Nodup.sublist
    (List.Sublist.map _ (List.filter_sublist _)) hnd

theorem roundNodupIds_removeSpeakerShape {d : DebateRound} {i : String}
    {f : Argument → Argument} (now : Nat) (hid : ∀ a, (f a).id = a.id)
    (hnd : RoundNodupIds d) :
    RoundNodupIds
      { d with
          speakers :=
            (d.speakers.filter (fun sp => sp.id != i)).map (fun sp =>
              { sp with arguments := sp.arguments.map f })
          updatedAt := now } := by
  unfold RoundNodupIds at *
  rw [roundArgs_removeSpeakerShape, List.map_map]
  have he : ((fun a : Argument => a.id) ∘ f) = (fun a : Argument => a.id) :=
    funext hid
  rw [he]
  exact List.Nodup.sublist
    (List.Sublist.map _
      (sublist_flatMap_of_sublist _ (List.filter_sublist _))) hnd

theorem roundNoSelfRef_link {d : DebateRound} (s t : String) (hst : s ≠ t)
    (now : Nat) (hns : RoundNoSelfRef d) :
    RoundNoSelfRef
      { d with
          speakers := d.speakers.map (fun sp =>
            { sp with arguments := sp.arguments.map (linkTransform s t) })
          updatedAt := now } := by
  intro a' ha'
  rw [roundArgs_mapArgs] at ha'
  obtain ⟨a, ha, rfl⟩ := List.mem_map.mp ha'
  rw [linkTransform_id]
  constructor
  · rw [mem_linkTransform_refutes]
    rintro (hx | ⟨has, hat⟩)
    · exact (hns a ha).1 hx
    · exact hst (has.symm.trans hat)
  · rw [mem_linkTransform_refutedBy]
    rintro (hx | ⟨_, hne, has⟩)
    · exact (hns a ha).2 hx
    · exact hne has

theorem roundNoSelfRef_unlink {d : DebateRound} (s t : String) (now : Nat)
    (hns : RoundNoSelfRef d) :
    RoundNoSelfRef
      { d with
          speakers := d.speakers.map (fun sp =>
            { sp with arguments := sp.arguments.map (unlinkTransform s t) })
          updatedAt := now } := by
  intro a' ha'
  rw [roundArgs_mapArgs] at ha'
  obtain ⟨a, ha, rfl⟩ := List.mem_map.mp ha'
  rw [unlinkTransform_id]
  exact ⟨fun hx => (hns a ha).1 (mem_unlinkTransform_refutes a _ |>.mp hx).1,
    fun hx => (hns a ha).2 (mem_unlinkTransform_refutedBy a _ |>.mp hx).1⟩

theorem roundNoSelfRef_delete {d : DebateRound} (x : String) (now : Nat)
    (hns : RoundNoSelfRef d) :
    RoundNoSelfRef
      { d with
          speakers := d.speakers.map (fun sp =>
            { sp with
                arguments := (sp.arguments.filter (fun arg => arg.id != x)).map
                  (stripArgId x) })
          updatedAt := now } := by
  intro a' ha'
  rw [roundArgs_filterMapArgs] at ha'
  obtain ⟨a, haf, rfl⟩ := List.mem_map.mp ha'
  have ha := List.mem_of_mem_filter haf
  rw [stripArgId_id]
  exact ⟨fun hx => (hns a ha).1 (mem_stripArgId_refutes a _ |>.mp hx).1,
    fun hx => (hns a ha).2 (mem_stripArgId_refutedBy a _ |>.mp hx).1⟩

theorem roundNoSelfRef_removeSpeaker {d : DebateRound} (i : String)
    (now : Nat) (hns : RoundNoSelfRef d) :
    RoundNoSelfRef
      { d with
          speakers :=
            (d.speakers.filter (fun sp => sp.id != i)).map (fun sp =>
              { sp with
                  arguments := sp.arguments.map
                    (stripRemoved (removedIdsOf d i)) })
          updatedAt := now } := by
  intro a' ha'
  rw [roundArgs_removeSpeakerShape] at ha'
  obtain ⟨a, haK, rfl⟩ := List.mem_map.mp ha'
  obtain ⟨spa, hspa, haa⟩ := List.mem_flatMap.mp haK
  have haM : a ∈ roundArgs d :=
    mem_roundArgs_of_speaker (List.mem_of_mem_filter hspa) haa
  rw [stripRemoved_id]
  exact ⟨fun hx => (hns a haM).1 (mem_stripRemoved_refutes a _ |>.mp hx).1,
    fun hx => (hns a haM).2 (mem_stripRemoved_refutedBy a _ |>.mp hx).1⟩

theorem applyOp_preserves (o : StoreOp) (now : Nat) (st : DebateState)
    (hok : SelfLinkFree o) (hnd : StateNodupIds st) (hns : StateNoSelfRef st)
    (hs : StateSymm st) :
    StateNodupIds (applyOp o now st) ∧ StateNoSelfRef (applyOp o now st) ∧
      StateSymm (applyOp o now st) := by
  cases o with
  | link s t =>
      simp only [applyOp]
      cases hcur : st.currentDebate with
      | none => rw [linkRefutation_none s t now hcur]; exact ⟨hnd, hns, hs⟩
      | some d =>
          rw [linkRefutation_some hcur s t now]
          have hst : s ≠ t := hok
          refine ⟨fun d' hd' => ?_, fun d' hd' => ?_, fun d' hd' => ?_⟩ <;>
            (injection hd' with he; subst he)
          · exact roundNodupIds_mapArgs now (linkTransform_id s t) (hnd d hcur)
          · exact roundNoSelfRef_link s t hst now (hns d hcur)
          · exact roundSymm_link s t hst now (hs d hcur)
  | unlink s t =>
      simp only [applyOp]
      cases hcur : st.currentDebate with
      | none => rw [unlinkRefutation_none s t now hcur]; exact ⟨hnd, hns, hs⟩
      | some d =>
          rw [unlinkRefutation_some hcur s t now]
          refine ⟨fun d' hd' => ?_, fun d' hd' => ?_, fun d' hd' => ?_⟩ <;>
            (injection hd' with he; subst he)
          · exact roundNodupIds_mapArgs now (unlinkTransform_id s t) (hnd d hcur)
          · exact roundNoSelfRef_unlink s t now (hns d hcur)
          · exact roundSymm_unlink s t now (hnd d hcur) (hns d hcur) (hs d hcur)
  | delArg x =>
      simp only [applyOp]
      cases hcur : st.currentDebate with
      | none => rw [deleteArgument_none x now hcur]; exact ⟨hnd, hns, hs⟩
      | some d =>
          rw [deleteArgument_some hcur x now]
          refine ⟨fun d' hd' => ?_, fun d' hd' => ?_, fun d' hd' => ?_⟩ <;>
            (injection hd' with he; subst he)
          · exact roundNodupIds_filterMapArgs now (stripArgId_id x) (hnd d hcur)
          · exact roundNoSelfRef_delete x now (hns d hcur)
          · exact roundSymm_delete x now (hs d hcur)
  | rmSpeaker i =>
      simp only [applyOp]
      cases hcur : st.currentDebate with
      | none => rw [removeSpeaker_none i now hcur]; exact ⟨hnd, hns, hs⟩
      | some d =>
          rw [removeSpeaker_some hcur i now]
          refine ⟨fun d' hd' => ?_, fun d' hd' => ?_, fun d' hd' => ?_⟩ <;>
            (injection hd' with he; subst he)
          · exact roundNodupIds_removeSpeakerShape now (stripRemoved_id _)
              (hnd d hcur)
          · exact roundNoSelfRef_removeSpeaker i now (hns d hcur)
          · exact roundSymm_removeSpeaker i now (hnd d hcur) (hs d hcur)

theorem runOps_preserves (ops : List (StoreOp × Nat)) :
    ∀ st : DebateState, (∀ p ∈ ops, SelfLinkFree p.1) →
      StateNodupIds st ∧ StateNoSelfRef st ∧ StateSymm st →
      StateNodupIds (runOps ops st) ∧ StateNoSelfRef (runOps ops st) ∧
        StateSymm (runOps ops st) := by
  induction ops with
  | nil => exact fun st _ h => h
  | cons p rest ih =>
      intro st hok h
      exact ih (applyOp p.1 p.2 st)
        (fun q hq => hok q (List.mem_cons_of_mem _ hq))
        (applyOp_preserves p.1 p.2 st (hok p (List.mem_cons_self _ _))
          h.1 h.2.1 h.2.2)

/-- C1 (amended): starting from a state whose current round satisfies link
symmetry, has pairwise-distinct argument ids and no self-references, every
sequence of `linkRefutation` / `unlinkRefutation` / `deleteArgument` /
`removeSpeaker` calls — including calls with non-existent ids — preserves
link symmetry, provided `linkRefutation` is never called with
`sourceId = targetId`. -/
theorem c1_link_symmetry_preserved (ops : List (StoreOp × Nat))
    (st : DebateState) (hnd : StateNodupIds st) (hns : StateNoSelfRef st)
    (hs : StateSymm st) (hok : ∀ p ∈ ops, SelfLinkFree p.1) :
    StateSymm (runOps ops st) :=
  (runOps_preserves ops st hok ⟨hnd, hns, hs⟩).2.2

/-- C1 counterexample: the claim as stated is false — from a symmetric
one-argument state, the self-referential call `linkRefutation("a","a")`
adds `"a"` to the argument's own `refutes` but not to its `refutedBy`,
breaking the symmetry invariant. -/
theorem c1_counterexample :
    StateSymm soloState ∧
      ¬ StateSymm (runOps [(StoreOp.link "a" "a", 1)] soloState) := by
  decide

/-- C1 witness: the amended theorem applied to a concrete two-speaker round
and a concrete operation sequence that links to a non-existent id, unlinks,
deletes an argument and removes a speaker. -/
theorem c1_witness :
    (StateNodupIds cascadeState ∧ StateNoSelfRef cascadeState ∧
        StateSymm cascadeState ∧ ∀ p ∈ sampleOps, SelfLinkFree p.1) ∧
      StateSymm (runOps sampleOps cascadeState) :=
  ⟨⟨by decide, by decide, by decide, by decide⟩,
    c1_link_symmetry_preserved sampleOps cascadeState (by decide) (by decide)
      (by decide) (by decide)⟩

/-! ### Idempotence of linking and unlinking -/

theorem insertUnique_of_contains {l : List String} {y : String}
    (h : l.contains y) : insertUnique l y = l := if_pos h

theorem contains_insertUnique_self (l : List String) (y : String) :
    (insertUnique l y).contains y = true := by
  unfold insertUnique
  by_cases h : l.contains y
  · rw [if_pos h]; exact h
  · rw [if_neg h, contains_iff]; simp

theorem insertUnique_idem (l : List String) (y : String) :
    insertUnique (insertUnique l y) y = insertUnique l y :=
  insertUnique_of_contains (contains_insertUnique_self l y)

theorem linkTransform_idem (s t : String) (a : Argument) :
    linkTransform s t (linkTransform s t a) = linkTransform s t a := by
  by_cases h1 : a.id = s
  · have hb1 : (a.id == s) = true := beq_iff_eq.mpr h1
    have e1 : linkTransform s t a = { a with refutes := insertUnique a.refutes t } := by
      unfold linkTransform; rw [if_pos hb1]
    rw [e1]
    unfold linkTransform
    rw [if_pos hb1]
    simp [insertUnique_idem]
  · have hb1 : ¬((a.id == s) = true) := by simp [h1]
    by_cases h2 : a.id = t
    · have hb2 : (a.id == t) = true := beq_iff_eq.mpr h2
      have e1 : linkTransform s t a =
          { a with refutedBy := insertUnique a.refutedBy s } := by
        unfold linkTransform; rw [if_neg hb1, if_pos hb2]
      rw [e1]
      unfold linkTransform
      rw [if_neg hb1, if_pos hb2]
      simp [insertUnique_idem]
    · have hb2 : ¬((a.id == t) = true) := by simp [h2]
      have e1 : linkTransform s t a = a := by
        unfold linkTransform; rw [if_neg hb1, if_neg hb2]
      rw [e1, e1]

theorem filter_ne_idem (l : List String) (y : String) :
    (l.filter (fun i => i != y)).filter (fun i => i != y)
      = l.filter (fun i => i != y) :=
  List.filter_eq_self.mpr (fun _ ha => (List.mem_filter.mp ha).2)

theorem unlinkTransform_idem (s t : String) (a : Argument) :
    unlinkTransform s t (unlinkTransform s t a) = unlinkTransform s t a := by
  by_cases h1 : a.id = s
  · have hb1 : (a.id == s) = true := beq_iff_eq.mpr h1
    have e1 : unlinkTransform s t a =
        { a with refutes := a.refutes.filter (fun i => i != t) } := by
      unfold unlinkTransform; rw [if_pos hb1]
    rw [e1]
    unfold unlinkTransform
    rw [if_pos hb1]
    simp [filter_ne_idem]
  · have hb1 : ¬((a.id == s) = true) := by simp [h1]
    by_cases h2 : a.id = t
    · have hb2 : (a.id == t) = true := beq_iff_eq.mpr h2
      have e1 : unlinkTransform s t a =
          { a with refutedBy := a.refutedBy.filter (fun i => i != s) } := by
        unfold unlinkTransform; rw [if_neg hb1, if_pos hb2]
      rw [e1]
      unfold unlinkTransform
      rw [if_neg hb1, if_pos hb2]
      simp [filter_ne_idem]
    · have hb2 : ¬((a.id == t) = true) := by simp [h2]
      have e1 : unlinkTransform s t a = a := by
        unfold unlinkTransform; rw [if_neg hb1, if_neg hb2]
      rw [e1, e1]

/-- C6: applying `linkRefutation(a,b)` twice yields the same
`refutes`/`refutedBy` graph (the whole speakers structure) as applying it
once, and likewise for `unlinkRefutation(a,b)` — for every store state and
all argument ids. -/
theorem c6_link_unlink_idempotent (s t : String) (n1 n2 : Nat)
    (st : DebateState) :
    (linkRefutation s t n2 (linkRefutation s t n1 st)).currentDebate.map
        (fun d => d.speakers)
      = (linkRefutation s t n1 st).currentDebate.map (fun d => d.speakers) ∧
    (unlinkRefutation s t n2 (unlinkRefutation s t n1 st)).currentDebate.map
        (fun d => d.speakers)
      = (unlinkRefutation s t n1 st).currentDebate.map (fun d => d.speakers) := by
  constructor
  · cases hcur : st.currentDebate with
    | none =>
        rw [linkRefutation_none s t n1 hcur, linkRefutation_none s t n2 hcur]
    | some d =>
        rw [linkRefutation_some hcur s t n1, linkRefutation_some rfl s t n2]
        simp only [Option.map_some', List.map_map]
        have hT : (linkTransform s t) ∘ (linkTransform s t)
            = linkTransform s t := funext (linkTransform_idem s t)
        have hF : ((fun sp : Speaker =>
              { sp with arguments := sp.arguments.map (linkTransform s t) }) ∘
            (fun sp : Speaker =>
              { sp with arguments := sp.arguments.map (linkTransform s t) }))
            = (fun sp : Speaker =>
              { sp with arguments := sp.arguments.map (linkTransform s t) }) := by
          funext sp
          show ({ sp with
              arguments := (sp.arguments.map (linkTransform s t)).map
                (linkTransform s t) } : Speaker) = _
          rw [List.map_map, hT]
        rw [hF]
  · cases hcur : st.currentDebate with
    | none =>
        rw [unlinkRefutation_none s t n1 hcur, unlinkRefutation_none s t n2 hcur]
    | some d =>
        rw [unlinkRefutation_some hcur s t n1, unlinkRefutation_some rfl s t n2]
        simp only [Option.map_some', List.map_map]
        have hT : (unlinkTransform s t) ∘ (unlinkTransform s t)
            = unlinkTransform s t := funext (unlinkTransform_idem s t)
        have hF : ((fun sp : Speaker =>
              { sp with arguments := sp.arguments.map (unlinkTransform s t) }) ∘
            (fun sp : Speaker =>
              { sp with arguments := sp.arguments.map (unlinkTransform s t) }))
            = (fun sp : Speaker =>
              { sp with arguments := sp.arguments.map (unlinkTransform s t) }) := by
          funext sp
          show ({ sp with
              arguments := (sp.arguments.map (unlinkTransform s t)).map
                (unlinkTransform s t) } : Speaker) = _
          rw [List.map_map, hT]
        rw [hF]

/-! ### linkRefutation never checks existence -/

/-- C2 counterexample: the claim as stated is false — with a single argument
`"a"` and an id `"ghost"` that resolves to no argument,
`linkRefutation("a","ghost")` is not a no-op: it stores the dangling id
`"ghost"` in the source argument's `refutes`. -/
theorem c2_counterexample :
    getArgumentById soloState "ghost" = none ∧
      linkRefutation "a" "ghost" 5 soloState ≠ soloState ∧
      ((linkRefutation "a" "ghost" 5 soloState).currentDebate.map
          (fun d => (roundArgs d).map (fun a => a.refutes)))
        = some [["ghost"]] := by
  decide

/-- C2 (amended): `linkRefutation(s,t)` performs no existence check.  With no
current round it is a full no-op; otherwise it bumps `updatedAt` and
transforms every argument independently: an argument with id `s` gains `t`
in `refutes` (if absent) and an argument with id `t` (when `t ≠ s`) gains
`s` in `refutedBy` (if absent) — whether or not the other endpoint exists,
so a call where only one id resolves still mutates that argument. -/
theorem c2_link_no_existence_check (st : DebateState) (s t : String)
    (now : Nat) :
    (st.currentDebate = none → linkRefutation s t now st = st) ∧
    (∀ d, st.currentDebate = some d →
      (linkRefutation s t now st).savedDebates = st.savedDebates ∧
      (linkRefutation s t now st).isSidebarOpen = st.isSidebarOpen ∧
      ∃ d', (linkRefutation s t now st).currentDebate = some d' ∧
        d'.updatedAt = now ∧
        roundArgs d' = (roundArgs d).map (linkTransform s t) ∧
        (∀ a : Argument, (linkTransform s t a).id = a.id ∧
          (∀ x, x ∈ (linkTransform s t a).refutes ↔
            x ∈ a.refutes ∨ (a.id = s ∧ x = t)) ∧
          (∀ x, x ∈ (linkTransform s t a).refutedBy ↔
            x ∈ a.refutedBy ∨ (a.id = t ∧ a.id ≠ s ∧ x = s)))) := by
  constructor
  · exact linkRefutation_none s t now
  · intro d hd
    rw [linkRefutation_some hd s t now]
    exact ⟨rfl, rfl, _, rfl, rfl, roundArgs_mapArgs d (linkTransform s t) now,
      fun a => ⟨linkTransform_id s t a,
        fun x => mem_linkTransform_refutes a x,
        fun x => mem_linkTransform_refutedBy a x⟩⟩

/-- C2 witness: the amended theorem at the concrete one-argument store and
the unresolvable target id `"ghost"`. -/
theorem c2_witness :
    soloState.currentDebate = some soloRound ∧
      (linkRefutation "a" "ghost" 5 soloState).savedDebates
        = soloState.savedDebates :=
  ⟨rfl,
    ((c2_link_no_existence_check soloState "a" "ghost" 5).2 soloRound rfl).1⟩

/-! ### No dangling references after deletion -/

/-- C5: after `deleteArgument(x)` no remaining argument's `refutes` or
`refutedBy` contains `x`; and — when argument ids belong to their containing
speaker and speaker ids are distinct — after `removeSpeaker(s)` no remaining
argument's `speakerId` references `s` and no remaining argument's
`refutes`/`refutedBy` contains the id of any argument that belonged to the
speaker with id `s`. -/
theorem c5_no_dangling_after_deletion (st : DebateState) (d : DebateRound)
    (h : st.currentDebate = some d) (x s : String) (n1 n2 : Nat)
    (hwf : ∀ sp ∈ d.speakers, ∀ a ∈ sp.arguments, a.speakerId = sp.id)
    (hnsp : (d.speakers.map (fun sp => sp.id)).Nodup) :
    (∀ d', (deleteArgument x n1 st).currentDebate = some d' →
      ∀ a ∈ roundArgs d', x ∉ a.refutes ∧ x ∉ a.refutedBy) ∧
    (∀ d', (removeSpeaker s n2 st).currentDebate = some d' →
      (∀ a ∈ roundArgs d', a.speakerId ≠ s) ∧
      (∀ b : Argument, (∃ sp ∈ d.speakers, sp.id = s ∧ b ∈ sp.arguments) →
        ∀ a ∈ roundArgs d', b.id ∉ a.refutes ∧ b.id ∉ a.refutedBy)) := by
  constructor
  · intro d' hd'
    rw [deleteArgument_some h x n1] at hd'
    injection hd' with he
    subst he
    intro a' ha'
    rw [roundArgs_filterMapArgs] at ha'
    obtain ⟨a, _, rfl⟩ := List.mem_map.mp ha'
    exact ⟨fun hx => ((mem_stripArgId_refutes a x).mp hx).2 rfl,
      fun hx => ((mem_stripArgId_refutedBy a x).mp hx).2 rfl⟩
  · intro d' hd'
    rw [removeSpeaker_some h s n2] at hd'
    injection hd' with he
    subst he
    constructor
    · intro a' ha'
      rw [roundArgs_removeSpeakerShape] at ha'
      obtain ⟨a, haK, rfl⟩ := List.mem_map.mp ha'
      obtain ⟨sp, hspf, haa⟩ := List.mem_flatMap.mp haK
      have hspne : sp.id ≠ s := by
        have := List.of_mem_filter hspf; rwa [bne_iff_ne] at this
      have hsid : a.speakerId = sp.id :=
        hwf sp (List.mem_of_mem_filter hspf) a haa
      show a.speakerId ≠ s
      rw [hsid]; exact hspne
    · rintro b ⟨spb, hspb, hspbid, hbmem⟩ a' ha'
      rw [roundArgs_removeSpeakerShape] at ha'
      obtain ⟨a, _, rfl⟩ := List.mem_map.mp ha'
      have hbR : b.id ∈ removedIdsOf d s := by
        unfold removedIdsOf
        cases hfind : d.speakers.find? (fun sp => sp.id == s) with
        | none =>
            have := List.find?_eq_none.mp hfind spb hspb
            exact absurd (beq_iff_eq.mpr hspbid) this
        | some spR =>
            have hspRmem := List.mem_of_find?_eq_some hfind
            have hspRid : spR.id = s := by
              have := List.find?_some hfind; rwa [beq_iff_eq] at this
            have hbb : spb = spR :=
              List.inj_on_of_nodup_map hnsp hspb hspRmem
                (hspbid.trans hspRid.symm)
            exact List.mem_map.mpr ⟨b, hbb ▸ hbmem, rfl⟩
      exact ⟨fun hx => ((mem_stripRemoved_refutes a _).mp hx).2 hbR,
        fun hx => ((mem_stripRemoved_refutedBy a _).mp hx).2 hbR⟩

/-- C5 witness: the theorem at the cascade scenario (speaker S1 with A1, A2,
speaker S2 with B1, A1 refuting B1), removing speaker `"s1"`. -/
theorem c5_witness :
    (cascadeState.currentDebate = some cascadeRound ∧
        (∀ sp ∈ cascadeRound.speakers, ∀ a ∈ sp.arguments,
          a.speakerId = sp.id) ∧
        (cascadeRound.speakers.map (fun sp => sp.id)).Nodup) ∧
      (∀ d', (removeSpeaker "s1" 9 cascadeState).currentDebate = some d' →
        ∀ a ∈ roundArgs d', a.speakerId ≠ "s1") :=
  ⟨⟨rfl, by decide, by decide⟩,
    fun d' hd' =>
      ((c5_no_dangling_after_deletion cascadeState cascadeRound rfl "zz" "s1"
            8 9 (by decide) (by decide)).2 d' hd').1⟩

/-! ### Auto-archive on new debate -/

theorem archiveRound_of_not_mem {saved : List DebateRound} {r : DebateRound}
    (h : ∀ x ∈ saved, x.id ≠ r.id) : archiveRound saved r = saved ++ [r] := by
  unfold archiveRound
  have hnone : saved.findIdx? (fun dd => dd.id == r.id) = none :=
    List.findIdx?_eq_none_iff.mpr (fun x hx => by simp [h x hx])
  rw [hnone]

theorem archiveRound_of_mem {saved : List DebateRound} {r : DebateRound}
    (h : ∃ x ∈ saved, x.id = r.id) :
    (archiveRound saved r).length = saved.length ∧ r ∈ archiveRound saved r := by
  unfold archiveRound
  obtain ⟨x, hx, hxid⟩ := h
  have hex : ∃ y ∈ saved, (fun dd => dd.id == r.id) y = true :=
    ⟨x, hx, beq_iff_eq.mpr hxid⟩
  rw [List.findIdx?_eq_some_of_exists hex]
  exact ⟨List.length_set saved _ r,
    List.mem_set saved _ (List.findIdx_lt_length_of_exists hex) r⟩

theorem createDebate_some {st : DebateState} {cur : DebateRound}
    (h : st.currentDebate = some cur) (topic f : String) (now : Nat) :
    createDebate topic f now st =
      { currentDebate := some
          { id := f, topic := topic, createdAt := now, updatedAt := now,
            speakers := [], status := "in-progress" }
        savedDebates :=
          if cur.speakers.length > 0 then archiveRound st.savedDebates cur
          else st.savedDebates
        isSidebarOpen := st.isSidebarOpen } := by
  simp only [createDebate, h]
  by_cases hsp : cur.speakers.length > 0
  · rw [if_pos hsp, if_pos hsp]
  · rw [if_neg hsp, if_neg hsp]

/-- C7: with a current round present, `createDebate(topic)` replaces the
current round with a fresh empty in-progress round, and first archives the
old round exactly when it has at least one speaker — appending it (length
+1) when its id is not in the archive, updating in place (length unchanged)
when it is, and leaving the archive untouched when the round has no
speakers. -/
theorem c7_auto_archive_on_new_debate (st : DebateState) (cur : DebateRound)
    (h : st.currentDebate = some cur) (topic f : String) (now : Nat) :
    (createDebate topic f now st).currentDebate =
      some { id := f, topic := topic, createdAt := now, updatedAt := now,
             speakers := [], status := "in-progress" } ∧
    (cur.speakers ≠ [] →
      ((∀ x ∈ st.savedDebates, x.id ≠ cur.id) →
        (createDebate topic f now st).savedDebates
          = st.savedDebates ++ [cur] ∧
        (createDebate topic f now st).savedDebates.length
          = st.savedDebates.length + 1) ∧
      ((∃ x ∈ st.savedDebates, x.id = cur.id) →
        (createDebate topic f now st).savedDebates.length
          = st.savedDebates.length ∧
        cur ∈ (createDebate topic f now st).savedDebates)) ∧
    (cur.speakers = [] →
      (createDebate topic f now st).savedDebates = st.savedDebates) := by
  rw [createDebate_some h topic f now]
  dsimp only
  refine ⟨rfl, fun hne => ?_, fun hnil => ?_⟩
  · have hsp : cur.speakers.length > 0 := List.length_pos.mpr hne
    rw [if_pos hsp]
    constructor
    · intro hno
      rw [archiveRound_of_not_mem hno]
      exact ⟨rfl, by simp⟩
    · intro hyes
      exact archiveRound_of_mem hyes
  · have hsp : ¬(cur.speakers.length > 0) := by simp [hnil]
    rw [if_neg hsp]

/-- C7 witness: the theorem at a store whose current round has two speakers
and whose archive is empty, so the round is appended and the archive grows
by one. -/
theorem c7_witness :
    (archState.currentDebate = some archRound ∧ archRound.speakers ≠ [] ∧
        (∀ x ∈ archState.savedDebates, x.id ≠ archRound.id)) ∧
      (createDebate "new topic, long enough" "fresh" 7 archState).savedDebates
          = archState.savedDebates ++ [archRound] ∧
      (createDebate "new topic, long enough" "fresh" 7
            archState).savedDebates.length
          = archState.savedDebates.length + 1 :=
  ⟨⟨rfl, by decide, by decide⟩,
    ((c7_auto_archive_on_new_debate archState archRound rfl
          "new topic, long enough" "fresh" 7).2.1 (by decide)).1 (by decide)⟩

/-! ### Summarization precondition -/

/-- C8: when every argument of the round has whitespace-only content, the
summary `mutationFn` throws its "nothing to summarize" error synchronously,
before the code path that contacts the external service is reached. -/
theorem c8_nothing_to_summarize (d : DebateRound)
    (h : ∀ sp ∈ d.speakers, ∀ a ∈ sp.arguments, jsTrim a.content = "") :
    summaryMutation (some d)
      = Except.error "No arguments recorded in the debate yet" := by
  have hside : ∀ sp ∈ d.speakers, speakerPromptArguments sp = [] := by
    intro sp hsp
    unfold speakerPromptArguments
    rw [List.filter_eq_nil_iff.mpr, List.map_nil]
    intro a ha
    simp [h sp hsp a ha]
  have haff : affirmativePromptArguments d = [] := by
    unfold affirmativePromptArguments
    rw [List.flatMap_eq_nil_iff]
    exact fun sp hsp => hside sp (List.mem_of_mem_filter hsp)
  have hneg : negativePromptArguments d = [] := by
    unfold negativePromptArguments
    rw [List.flatMap_eq_nil_iff]
    exact fun sp hsp => hside sp (List.mem_of_mem_filter hsp)
  simp [summaryMutation, haff, hneg]

/-- C8 witness: the theorem at a round whose single argument's content is
three spaces. -/
theorem c8_witness :
    (∀ sp ∈ wsRound.speakers, ∀ a ∈ sp.arguments, jsTrim a.content = "") ∧
      summaryMutation (some wsRound)
        = Except.error "No arguments recorded in the debate yet" :=
  ⟨by decide, c8_nothing_to_summarize wsRound (by decide)⟩

/-! ### addSpeaker with no current round -/

/-- C10: with no current round, `addSpeaker` leaves the whole store
unchanged yet still returns the freshly generated id, and (since generated
ids are fresh) that id identifies no speaker stored anywhere — the return
value is indistinguishable from a successful insertion. -/
theorem c10_addSpeaker_without_round (st : DebateState) (sp : NewSpeaker)
    (f : String) (now : Nat) (h : st.currentDebate = none)
    (hfresh : ∀ d ∈ st.savedDebates, ∀ spk ∈ d.speakers, spk.id ≠ f) :
    (addSpeaker sp f now st).1 = st ∧
    (addSpeaker sp f now st).2 = f ∧
    (addSpeaker sp f now st).1.currentDebate = none ∧
    (∀ d ∈ (addSpeaker sp f now st).1.savedDebates, ∀ spk ∈ d.speakers,
      spk.id ≠ f) := by
  have e : addSpeaker sp f now st = (st, f) := by
    simp only [addSpeaker, h]
  rw [e]
  exact ⟨rfl, rfl, h, hfresh⟩

/-- C10 witness: the theorem at a store with no current round and one
archived round none of whose speakers has the generated id. -/
theorem c10_witness :
    (noRoundState.currentDebate = none ∧
        (∀ d ∈ noRoundState.savedDebates, ∀ spk ∈ d.speakers,
          spk.id ≠ "fresh9")) ∧
      (addSpeaker { name := "N", side := "affirmative", order := 1 } "fresh9"
          3 noRoundState).1 = noRoundState ∧
      (addSpeaker { name := "N", side := "affirmative", order := 1 } "fresh9"
          3 noRoundState).2 = "fresh9" :=
  ⟨⟨rfl, by decide⟩,
    (c10_addSpeaker_without_round noRoundState
        { name := "N", side := "affirmative", order := 1 } "fresh9" 3 rfl
        (by decide)).1,
    (c10_addSpeaker_without_round noRoundState
        { name := "N", side := "affirmative", order := 1 } "fresh9" 3 rfl
        (by decide)).2.1⟩

/-! ### Speaker-level REF highlighting -/

/-- C3: in the REF scenario (argument `x1` of S1 with
`refutesSpeaker = "s2"`), hovering `x1` does produce the outgoing edge to
`"speaker-s2"`, but hovering the speaker-prefixed id `"speaker-s2"` yields
the empty highlight: `getArgumentById` cannot resolve a speaker-prefixed id,
so the speaker-hover branch of the computation is unreachable. -/
theorem c3_speaker_hover_unreachable :
    (computeHighlight (some "x1") refState).outgoingLinks =
      [{ sourceArgumentId := "x1", targetArgumentId := "speaker-s2",
         type := "refutes" }] ∧
    getArgumentById refState "speaker-s2" = none ∧
    computeHighlight (some "speaker-s2") refState = emptyHighlight := by
  decide

/-! ### Argument-hover highlighting -/

theorem findArgInSpeakers_eq (l : List Speaker) (i : String) :
    findArgInSpeakers l i
      = (l.flatMap (fun sp => sp.arguments)).find? (fun a => a.id == i) := by
  induction l with
  | nil => rfl
  | cons sp rest ih =>
      rw [List.flatMap_cons, List.find?_append]
      cases hf : sp.arguments.find? (fun a => a.id == i) with
      | some a => simp [findArgInSpeakers, hf, Option.or]
      | none => simp [findArgInSpeakers, hf, Option.or, ih]

theorem getArgumentById_some {st : DebateState} {d : DebateRound}
    (h : st.currentDebate = some d) (i : String) :
    getArgumentById st i = (roundArgs d).find? (fun a => a.id == i) := by
  unfold getArgumentById roundArgs
  rw [h]
  exact findArgInSpeakers_eq d.speakers i

theorem getRefutationLinks_some {st : DebateState} {d : DebateRound}
    (h : st.currentDebate = some d) :
    getRefutationLinks st
      = (roundArgs d).flatMap (fun a => a.refutes.map (fun targetId =>
          ({ sourceArgumentId := a.id, targetArgumentId := targetId,
             type := "refutes" } : RefutationLink))) := by
  unfold getRefutationLinks roundArgs
  rw [h]
  exact (List.flatMap_assoc d.speakers _ _).symm

theorem refScan_nil {d : DebateRound}
    (hall : ∀ a ∈ roundArgs d, a.refutesSpeaker = none) (z hov : String) :
    d.speakers.flatMap (fun speaker =>
      (speaker.arguments.filter (fun arg => arg.refutesSpeaker == some z)).map
        (fun arg =>
          ({ sourceArgumentId := arg.id, targetArgumentId := hov,
             type := "refuted-by" } : RefutationLink))) = [] := by
  rw [List.flatMap_eq_nil_iff]
  intro sp hsp
  rw [List.filter_eq_nil_iff.mpr, List.map_nil]
  intro a ha
  simp [hall a (mem_roundArgs_of_speaker hsp ha)]

/-- C4: in a round whose arguments are exactly A, B, C with A refuting B
(`A.refutes = [B.id]`, `B.refutedBy = [A.id]`) and C unlinked, hovering A
yields exactly the outgoing edge A→B (type `"refutes"`) with connected set
{B}; hovering B yields exactly the incoming edge B→A (endpoints swapped,
type `"refuted-by"`) with connected set {A}; hovering C yields the empty
highlight. -/
theorem c4_argument_hover_highlight (st : DebateState) (d : DebateRound)
    (h : st.currentDebate = some d) (A B C : Argument)
    (hargs : roundArgs d = [A, B, C])
    (hAB : A.id ≠ B.id) (hAC : A.id ≠ C.id) (hBC : B.id ≠ C.id)
    (hA : A.refutes = [B.id] ∧ A.refutedBy = [] ∧ A.refutesSpeaker = none)
    (hB : B.refutes = [] ∧ B.refutedBy = [A.id] ∧ B.refutesSpeaker = none)
    (hC : C.refutes = [] ∧ C.refutedBy = [] ∧ C.refutesSpeaker = none) :
    computeHighlight (some A.id) st =
      { outgoingLinks := [RefutationLink.mk A.id B.id "refutes"],
        incomingLinks := [],
        allRelevantLinks := [RefutationLink.mk A.id B.id "refutes"],
        connectedArgumentIds := [B.id] } ∧
    computeHighlight (some B.id) st =
      { outgoingLinks := [],
        incomingLinks := [RefutationLink.mk B.id A.id "refuted-by"],
        allRelevantLinks := [RefutationLink.mk B.id A.id "refuted-by"],
        connectedArgumentIds := [A.id] } ∧
    computeHighlight (some C.id) st = emptyHighlight := by
  have hall : ∀ a ∈ roundArgs d, a.refutesSpeaker = none := by
    rw [hargs]
    intro a ha
    rcases List.mem_cons.mp ha with rfl | ha2
    · exact hA.2.2
    rcases List.mem_cons.mp ha2 with rfl | ha3
    · exact hB.2.2
    rcases List.mem_cons.mp ha3 with rfl | ha4
    · exact hC.2.2
    · cases ha4
  have hlinks : getRefutationLinks st =
      [{ sourceArgumentId := A.id, targetArgumentId := B.id,
         type := "refutes" }] := by
    rw [getRefutationLinks_some h, hargs]
    simp [hA.1, hB.1, hC.1]
  have hfindA : getArgumentById st A.id = some A := by
    rw [getArgumentById_some h, hargs]
    simp [List.find?]
  have hfindB : getArgumentById st B.id = some B := by
    rw [getArgumentById_some h, hargs]
    have hb : (A.id == B.id) = false := beq_eq_false_iff_ne.mpr hAB
    simp [List.find?, hb]
  have hfindC : getArgumentById st C.id = some C := by
    rw [getArgumentById_some h, hargs]
    have hb1 : (A.id == C.id) = false := beq_eq_false_iff_ne.mpr hAC
    have hb2 : (B.id == C.id) = false := beq_eq_false_iff_ne.mpr hBC
    simp [List.find?, hb1, hb2]
  refine ⟨?_, ?_, ?_⟩
  · simp [computeHighlight, hlinks, hfindA, h, hA.2.2, refScan_nil hall,
      insertUnique, hAB, Ne.symm hAB]
  · simp [computeHighlight, hlinks, hfindB, h, hB.2.2, refScan_nil hall,
      insertUnique, hAB, Ne.symm hAB]
  · simp [computeHighlight, hlinks, hfindC, h, hC.2.2, refScan_nil hall,
      insertUnique, emptyHighlight, Ne.symm hAC, Ne.symm hBC, hAC, hBC]

/-- C4 witness: the theorem at the concrete round `hlRound` (A = `a1`
refuting B = `b1`, C = `c1` unlinked). -/
theorem c4_witness :
    (hlState.currentDebate = some hlRound ∧ roundArgs hlRound = [hlA, hlB, hlC] ∧
        hlA.id ≠ hlB.id ∧ hlA.id ≠ hlC.id ∧ hlB.id ≠ hlC.id) ∧
      computeHighlight (some hlC.id) hlState = emptyHighlight :=
  ⟨⟨rfl, by decide, by decide, by decide, by decide⟩,
    (c4_argument_hover_highlight hlState hlRound rfl hlA hlB hlC (by decide)
        (by decide) (by decide) (by decide) (by decide) (by decide)
        (by decide)).2.2⟩

/-! ### Schema validation of the collaborator response -/

theorem mapOption_mem {α : Type} {f : Json → Option α} :
    ∀ {items : List Json} {out : List α}, mapOption f items = some out →
      ∀ e ∈ items, ∃ y, f e = some y := by
  intro items
  induction items with
  | nil => intro out _ e he; cases he
  | cons j rest ih =>
      intro out h e he
      unfold mapOption at h
      cases hf : f j with
      | none => rw [hf] at h; cases h
      | some a =>
          rw [hf] at h
          cases hr : mapOption f rest with
          | none => rw [hr] at h; cases h
          | some tail0 =>
              rw [hr] at h
              rcases List.mem_cons.mp he with rfl | he2
              · exact ⟨a, hf⟩
              · exact ih hr e he2

theorem parseJsonString_some {j : Json} {s : String}
    (h : parseJsonString j = some s) : j = Json.str s := by
  cases j with
  | str s0 =>
      unfold parseJsonString at h
      injection h with he
      rw [he]
  | null => exact Option.noConfusion h
  | bool b => exact Option.noConfusion h
  | num n => exact Option.noConfusion h
  | arr items => exact Option.noConfusion h
  | obj fields => exact Option.noConfusion h

theorem parseSide_some {j : Json} {s : String} (h : parseSide j = some s) :
    j = Json.str s ∧ (s = "affirmative" ∨ s = "negative") := by
  cases j with
  | str s0 =>
      replace h : (if (s0 == "affirmative" || s0 == "negative") = true
          then some s0 else none) = some s := h
      by_cases hc : (s0 == "affirmative" || s0 == "negative") = true
      · rw [if_pos hc] at h
        injection h with he
        subst he
        refine ⟨rfl, ?_⟩
        rcases Bool.or_eq_true_iff.mp hc with hx | hx
        · exact Or.inl (beq_iff_eq.mp hx)
        · exact Or.inr (beq_iff_eq.mp hx)
      · rw [if_neg hc] at h
        exact Option.noConfusion h
  | null => exact Option.noConfusion h
  | bool b => exact Option.noConfusion h
  | num n => exact Option.noConfusion h
  | arr items => exact Option.noConfusion h
  | obj fields => exact Option.noConfusion h

theorem parseClashStatus_some {j : Json} {s : String}
    (h : parseClashStatus j = some s) :
    j = Json.str s ∧ (s = "resolved" ∨ s = "contested" ∨ s = "unaddressed") := by
  cases j with
  | str s0 =>
      replace h : (if (s0 == "resolved" || s0 == "contested" ||
            s0 == "unaddressed") = true then some s0 else none) = some s := h
      by_cases hc :
        (s0 == "resolved" || s0 == "contested" || s0 == "unaddressed") = true
      · rw [if_pos hc] at h
        injection h with he
        subst he
        refine ⟨rfl, ?_⟩
        rcases Bool.or_eq_true_iff.mp hc with hx | hx
        · rcases Bool.or_eq_true_iff.mp hx with hy | hy
          · exact Or.inl (beq_iff_eq.mp hy)
          · exact Or.inr (Or.inl (beq_iff_eq.mp hy))
        · exact Or.inr (Or.inr (beq_iff_eq.mp hx))
      · rw [if_neg hc] at h
        exact Option.noConfusion h
  | null => exact Option.noConfusion h
  | bool b => exact Option.noConfusion h
  | num n => exact Option.noConfusion h
  | arr items => exact Option.noConfusion h
  | obj fields => exact Option.noConfusion h

theorem parseStrength_some {j : Json} {q : Rat} (h : parseStrength j = some q) :
    j = Json.num q ∧ 0 ≤ q ∧ q ≤ 100 := by
  cases j with
  | num n =>
      replace h : (if 0 ≤ n ∧ n ≤ 100 then some n else none) = some q := h
      by_cases hc : 0 ≤ n ∧ n ≤ 100
      · rw [if_pos hc] at h
        injection h with he
        subst he
        exact ⟨rfl, hc⟩
      · rw [if_neg hc] at h
        exact Option.noConfusion h
  | null => exact Option.noConfusion h
  | bool b => exact Option.noConfusion h
  | str s0 => exact Option.noConfusion h
  | arr items => exact Option.noConfusion h
  | obj fields => exact Option.noConfusion h

theorem parseJsonArray_some {j : Json} {items : List Json}
    (h : parseJsonArray j = some items) : j = Json.arr items := by
  cases j with
  | arr items0 =>
      unfold parseJsonArray at h
      injection h with he
      rw [he]
  | null => exact Option.noConfusion h
  | bool b => exact Option.noConfusion h
  | num n => exact Option.noConfusion h
  | str s0 => exact Option.noConfusion h
  | obj fields => exact Option.noConfusion h

theorem parseMajorArgument_some {j : Json} {m : MajorArgument}
    (h : parseMajorArgument j = some m) :
    (∃ side, j.getField "side" = some (Json.str side) ∧
      (side = "affirmative" ∨ side = "negative")) ∧
    (∃ text, j.getField "argument" = some (Json.str text)) ∧
    (∃ strength, j.getField "strength" = some (Json.num strength) ∧
      0 ≤ strength ∧ strength ≤ 100) := by
  unfold parseMajorArgument at h
  cases h1 : (j.getField "side").bind parseSide with
  | none => rw [h1] at h; cases h
  | some side =>
  cases h2 : (j.getField "argument").bind parseJsonString with
  | none => rw [h1, h2] at h; cases h
  | some text =>
  cases h3 : (j.getField "strength").bind parseStrength with
  | none => rw [h1, h2, h3] at h; cases h
  | some strength =>
      obtain ⟨v1, hv1, hp1⟩ := Option.bind_eq_some.mp h1
      obtain ⟨v2, hv2, hp2⟩ := Option.bind_eq_some.mp h2
      obtain ⟨v3, hv3, hp3⟩ := Option.bind_eq_some.mp h3
      obtain ⟨he1, hs1⟩ := parseSide_some hp1
      have he2 := parseJsonString_some hp2
      obtain ⟨he3, hs3⟩ := parseStrength_some hp3
      exact ⟨⟨side, he1 ▸ hv1, hs1⟩, ⟨text, he2 ▸ hv2⟩,
        ⟨strength, he3 ▸ hv3, hs3⟩⟩

theorem parseClashArea_some {j : Json} {c : ClashArea}
    (h : parseClashArea j = some c) :
    (∃ topic, j.getField "topic" = some (Json.str topic)) ∧
    (∃ aff, j.getField "affirmativePosition" = some (Json.str aff)) ∧
    (∃ neg, j.getField "negativePosition" = some (Json.str neg)) ∧
    (∃ status, j.getField "status" = some (Json.str status) ∧
      (status = "resolved" ∨ status = "contested" ∨ status = "unaddressed")) := by
  unfold parseClashArea at h
  cases h1 : (j.getField "topic").bind parseJsonString with
  | none => rw [h1] at h; cases h
  | some topic =>
  cases h2 : (j.getField "affirmativePosition").bind parseJsonString with
  | none => rw [h1, h2] at h; cases h
  | some aff =>
  cases h3 : (j.getField "negativePosition").bind parseJsonString with
  | none => rw [h1, h2, h3] at h; cases h
  | some neg =>
  cases h4 : (j.getField "status").bind parseClashStatus with
  | none => rw [h1, h2, h3, h4] at h; cases h
  | some status =>
      obtain ⟨v1, hv1, hp1⟩ := Option.bind_eq_some.mp h1
      obtain ⟨v2, hv2, hp2⟩ := Option.bind_eq_some.mp h2
      obtain ⟨v3, hv3, hp3⟩ := Option.bind_eq_some.mp h3
      obtain ⟨v4, hv4, hp4⟩ := Option.bind_eq_some.mp h4
      have he1 := parseJsonString_some hp1
      have he2 := parseJsonString_some hp2
      have he3 := parseJsonString_some hp3
      obtain ⟨he4, hs4⟩ := parseClashStatus_some hp4
      exact ⟨⟨topic, he1 ▸ hv1⟩, ⟨aff, he2 ▸ hv2⟩, ⟨neg, he3 ▸ hv3⟩,
        ⟨status, he4 ▸ hv4, hs4⟩⟩

theorem validateSummary_sound {j : Json} {s : DebateSummary}
    (h : validateSummary j = some s) : SummaryJsonWellFormed j := by
  unfold validateSummary at h
  cases h1 : ((j.getField "majorArguments").bind parseJsonArray).bind
      (mapOption parseMajorArgument) with
  | none => rw [h1] at h; cases h
  | some ma =>
  cases h2 : ((j.getField "areasOfClash").bind parseJsonArray).bind
      (mapOption parseClashArea) with
  | none => rw [h1, h2] at h; cases h
  | some ac =>
  cases h3 : ((j.getField "recommendations").bind parseJsonArray).bind
      (mapOption parseJsonString) with
  | none => rw [h1, h2, h3] at h; cases h
  | some recs =>
  cases h4 : (j.getField "overallAssessment").bind parseJsonString with
  | none => rw [h1, h2, h3, h4] at h; cases h
  | some oa =>
      obtain ⟨v1, hb1, hm1⟩ := Option.bind_eq_some.mp h1
      obtain ⟨w1, hw1, ha1⟩ := Option.bind_eq_some.mp hb1
      obtain ⟨v2, hb2, hm2⟩ := Option.bind_eq_some.mp h2
      obtain ⟨w2, hw2, ha2⟩ := Option.bind_eq_some.mp hb2
      obtain ⟨v3, hb3, hm3⟩ := Option.bind_eq_some.mp h3
      obtain ⟨w3, hw3, ha3⟩ := Option.bind_eq_some.mp hb3
      obtain ⟨v4, hv4, hp4⟩ := Option.bind_eq_some.mp h4
      refine ⟨⟨v1, (parseJsonArray_some ha1) ▸ hw1, ?_⟩,
        ⟨v2, (parseJsonArray_some ha2) ▸ hw2, ?_⟩,
        ⟨v3, (parseJsonArray_some ha3) ▸ hw3, ?_⟩,
        ⟨oa, (parseJsonString_some hp4) ▸ hv4⟩⟩
      · intro e he
        obtain ⟨m, hm⟩ := mapOption_mem hm1 e he
        exact parseMajorArgument_some hm
      · intro e he
        obtain ⟨c, hc⟩ := mapOption_mem hm2 e he
        exact parseClashArea_some hc
      · intro e he
        obtain ⟨r, hr⟩ := mapOption_mem hm3 e he
        exact ⟨r, parseJsonString_some hr⟩

/-- C9: any extracted JSON that is not well-formed for the summary schema —
in particular one missing `overallAssessment`, with a wrongly-typed field,
a strength outside 0–100, an unrecognized side, or an unrecognized clash
status — is rejected by the validator (the parse throws), and a rejected
response leaves the displayed summary unchanged. -/
theorem c9_malformed_response_rejected (j : Json)
    (h : ¬ SummaryJsonWellFormed j) :
    parseAIResponse j = Except.error "ZodError" ∧
    ∀ prev, applySummaryMutationResult prev (parseAIResponse j) = prev := by
  cases hv : validateSummary j with
  | some s => exact absurd (validateSummary_sound hv) h
  | none =>
      unfold parseAIResponse
      rw [hv]
      exact ⟨rfl, fun _ => rfl⟩

/-- C9 witness: the theorem at the concrete payload missing the required
`overallAssessment` field. -/
theorem c9_witness :
    (¬ SummaryJsonWellFormed badSummaryJson) ∧
      parseAIResponse badSummaryJson = Except.error "ZodError" ∧
      ∀ prev, applySummaryMutationResult prev (parseAIResponse badSummaryJson)
        = prev :=
  have hbad : ¬ SummaryJsonWellFormed badSummaryJson := by
    intro hwf
    obtain ⟨-, -, -, oa, hoa⟩ := hwf
    have hnone : badSummaryJson.getField "overallAssessment" = none := rfl
    rw [hnone] at hoa
    cases hoa
  ⟨hbad, (c9_malformed_response_rejected badSummaryJson hbad).1,
    (c9_malformed_response_rejected badSummaryJson hbad).2⟩

end CongressFlow
